import Mathlib

set_option linter.unusedVariables false
set_option maxHeartbeats 1000000

/-!
Shallow embedding of the capability-manifest migration and validation engine:
`src/tools/migration/migrate_yaml_to_enhanced.py` (class `YamlMigrationTool`) and
`src/tools/validation/validate_yaml_migration.py` (class `YamlMigrationValidator`).

Parsed YAML documents are modelled by the inductive type `Yaml`; Python code that
can raise an exception is modelled with `Option` (`none` = an exception is raised).
-/

/-- A value produced by `yaml.safe_load`: strings, integers, booleans, null,
sequences, and string-keyed mappings.  Mappings keep insertion order, as Python
dicts do.  Floats and non-string mapping keys do not occur in the capability
manifests this pipeline handles and are not modelled. -/
inductive Yaml where
  | str : String → Yaml
  | int : Int → Yaml
  | bool : Bool → Yaml
  | null : Yaml
  | list : List Yaml → Yaml
  | dict : List (String × Yaml) → Yaml

/-- ASCII lower-casing of a string, as `str.lower()` behaves on the ASCII
identifiers this pipeline sees. -/
def strLower (s : String) : String := String.mk (s.data.map Char.toLower)

/-- `s.replace(a, b)` for a single-character pattern (the source only calls
`.replace("_", " ")`). -/
def charReplace (s : String) (a b : Char) : String :=
  String.mk (s.data.map (fun c => if c == a then b else c))

def startsWithCL : List Char → List Char → Bool
  | [], _ => true
  | _ :: _, [] => false
  | p :: ps, c :: cs => p == c && startsWithCL ps cs

def containsCL (pat : List Char) : List Char → Bool
  | [] => startsWithCL pat []
  | c :: cs => startsWithCL pat (c :: cs) || containsCL pat cs

/-- Python substring test `needle in hay`. -/
def strContains (hay needle : String) : Bool := containsCL needle.data hay.data

/-- Python `hay.startswith(needle)`. -/
def strStartsWith (hay needle : String) : Bool := startsWithCL needle.data hay.data

def digitChar (n : Nat) : Char := Char.ofNat (48 + n)

def natReprAux : Nat → Nat → String
  | 0, _ => ""
  | fuel + 1, n => if n < 10 then String.mk [digitChar n]
                   else natReprAux fuel (n / 10) ++ String.mk [digitChar (n % 10)]

def natReprPy (n : Nat) : String := natReprAux (n + 1) n

/-- Python `str()` of an integer. -/
def intReprPy : Int → String
  | Int.ofNat n => natReprPy n
  | Int.negSucc n => "-" ++ natReprPy (n + 1)

/-- `str.title()`: upper-case the first letter of each alphabetic run,
lower-case the rest. -/
def pyTitleGo : Bool → List Char → List Char
  | _, [] => []
  | prevAlpha, c :: cs =>
    (if c.isAlpha then (if prevAlpha then c.toLower else c.toUpper) else c) :: pyTitleGo c.isAlpha cs

def pyTitle (s : String) : String := String.mk (pyTitleGo false s.data)

mutual
/-- Python `repr()` of a parsed-YAML value, as rendered inside `str()` of a
container: strings are quoted (escaping of quote characters inside a string is
not modelled; the manifests under study contain none), integers and booleans
and `None` use Python spellings, lists and dicts use bracketed comma-joined
forms. -/
def pyRepr : Yaml → String
  | .str s => "\x27" ++ s ++ "\x27"
  | .int i => intReprPy i
  | .bool b => if b then "True" else "False"
  | .null => "None"
  | .list xs => "[" ++ pyReprList xs ++ "]"
  | .dict fs => "\x7b" ++ pyReprDict fs ++ "\x7d"

def pyReprList : List Yaml → String
  | [] => ""
  | [x] => pyRepr x
  | x :: y :: rest => pyRepr x ++ ", " ++ pyReprList (y :: rest)

def pyReprDict : List (String × Yaml) → String
  | [] => ""
  | [(k, v)] => "\x27" ++ k ++ "\x27: " ++ pyRepr v
  | (k, v) :: e :: rest => "\x27" ++ k ++ "\x27: " ++ pyRepr v ++ ", " ++ pyReprDict (e :: rest)
end

/-- Python `str()` of a parsed-YAML value (a string renders as itself, anything
else as its `repr`); this is what an f-string interpolation produces. -/
def pyStr (v : Yaml) : String :=
  match v with
  | .str s => s
  | _ => pyRepr v

namespace Yaml

/-- `d.get(k, default)` on an insertion-ordered mapping (first binding wins). -/
def getD (fields : List (String × Yaml)) (k : String) (d : Yaml) : Yaml :=
  match fields with
  | [] => d
  | (k', v) :: rest => if k' == k then v else getD rest k d

/-- `d.get(k)` / `d[k]`, `none` when the key is absent. -/
def getOpt (fields : List (String × Yaml)) (k : String) : Option Yaml :=
  match fields with
  | [] => none
  | (k', v) :: rest => if k' == k then some v else getOpt rest k

/-- `d[k] = v` on an insertion-ordered mapping: replace in place when the key
exists, append otherwise. -/
def setKey (fields : List (String × Yaml)) (k : String) (v : Yaml) : List (String × Yaml) :=
  match fields with
  | [] => [(k, v)]
  | (k', v') :: rest => if k' == k then (k', v) :: rest else (k', v') :: setKey rest k v

/-- `k in d` for a mapping. -/
def hasKey (fields : List (String × Yaml)) (k : String) : Bool :=
  fields.any (fun kv => kv.1 == k)

/-- Python truthiness of a parsed-YAML value. -/
def truthy : Yaml → Bool
  | .str s => !(s == "")
  | .int i => !(i == 0)
  | .bool b => b
  | .null => false
  | .list xs => !xs.isEmpty
  | .dict fs => !fs.isEmpty

/-- The receiver of an attribute access such as `.get` must be a mapping;
anything else raises `AttributeError`. -/
def asDict : Yaml → Option (List (String × Yaml))
  | .dict fs => some fs
  | _ => none

/-- Python `len()`: defined for strings, lists and mappings, raises `TypeError`
otherwise. -/
def pyLen : Yaml → Option Nat
  | .str s => some s.data.length
  | .list xs => some xs.length
  | .dict fs => some fs.length
  | _ => none

/-- Python iteration `for x in v`: a list yields its elements, a mapping its
keys, a string its characters; anything else raises `TypeError`. -/
def pyIter : Yaml → Option (List Yaml)
  | .list xs => some xs
  | .dict fs => some (fs.map (fun kv => Yaml.str kv.1))
  | .str s => some (s.data.map (fun c => Yaml.str (String.mk [c])))
  | _ => none

/-- Python `==` between a parsed-YAML value and a string literal. -/
def eqStr : Yaml → String → Bool
  | .str s, t => s == t
  | _, _ => false

/-- Python membership test `needle in container` for a string needle: key
membership for mappings, element equality for lists, substring test for
strings; raises `TypeError` (`none`) otherwise. -/
def pyIn (needle : String) : Yaml → Option Bool
  | .dict fs => some (hasKey fs needle)
  | .list xs => some (xs.any (fun x => eqStr x needle))
  | .str s => some (strContains s needle)
  | _ => none

end Yaml

/-- Python `==` between two hashable parsed-YAML scalars (Python equates `True`
with `1` and `False` with `0`).  Lists and mappings never reach this comparison
because `set()` rejects them as unhashable first. -/
def pyEqScalar : Yaml → Yaml → Bool
  | .str a, .str b => a == b
  | .int a, .int b => a == b
  | .bool a, .bool b => a == b
  | .int a, .bool b => a == (if b then (1 : Int) else 0)
  | .bool a, .int b => (if a then (1 : Int) else 0) == b
  | .null, .null => true
  | _, _ => false

def pyHashable : Yaml → Bool
  | .list _ => false
  | .dict _ => false
  | _ => true

def dedupPyGo : List Yaml → List Yaml → List Yaml
  | _, [] => []
  | seen, x :: xs =>
    if seen.any (fun y => pyEqScalar y x) then dedupPyGo seen xs
    else x :: dedupPyGo (x :: seen) xs

/-- `list(set(xs))`: raises `TypeError` on unhashable elements; the iteration
order of a Python set is implementation-defined, modelled here as order of
first occurrence (no property proved below depends on this order). -/
def dedupPy (l : List Yaml) : Option (List Yaml) :=
  if l.all pyHashable then some (dedupPyGo [] l) else none

/-- A Python for-loop that builds a list and propagates the first raised
exception: map with an `Option`-valued body. -/
def mapMo {α β : Type} (f : α → Option β) : List α → Option (List β)
  | [] => some []
  | a :: as => do
      let b ← f a
      let bs ← mapMo f as
      pure (b :: bs)

namespace YamlMigrationTool

/-- The static tool-name → security-classification table of
`YamlMigrationTool.__init__`. -/
def tool_security_mapping : List (String × String) :=
  [("read_file", "restricted"), ("write_file", "privileged"), ("delete_file", "dangerous"),
   ("list_directory", "safe"),
   ("execute_command", "dangerous"), ("system_info", "safe"), ("process_list", "restricted"),
   ("http_request", "restricted"), ("ping", "safe"), ("network_scan", "privileged"),
   ("database_query", "privileged"), ("database_write", "dangerous"),
   ("default", "restricted")]

def lookupStrD (m : List (String × String)) (k : String) (d : String) : String :=
  match m with
  | [] => d
  | (k', v) :: rest => if k' == k then v else lookupStrD rest k d

/-- First-match-wins walk over an ordered (trigger, value) table: the Python
`for key, value in mapping.items(): if key in ident: ...; break` loops. -/
def firstMatch {α : Type} (m : List (String × α)) (identLower : String) (d : α) : α :=
  match m with
  | [] => d
  | (k, v) :: rest => if strContains identLower k then v else firstMatch rest identLower d

/-- The security-level branch of `_classify_capability`: four bucket tests in
source order (privileged, then restricted, then dangerous, fall-through safe). -/
def security_level_of (file_stem : String) : String :=
  if ["admin", "system", "root", "security"].any (fun w => strContains (strLower file_stem) w) then
    "privileged"
  else if ["file", "database", "network"].any (fun w => strContains (strLower file_stem) w) then
    "restricted"
  else if ["delete", "remove", "execute"].any (fun w => strContains (strLower file_stem) w) then
    "dangerous"
  else
    "safe"

/-- The complexity-level branch of `_classify_capability`, from the count of
tools declared in the legacy metadata block. -/
def complexity_level_of (tools_count : Nat) : String :=
  if tools_count > 10 then "very_complex"
  else if tools_count > 5 then "complex"
  else if tools_count > 2 then "moderate"
  else "simple"

def domain_mapping : List (String × String) :=
  [("file", "filesystem"), ("http", "networking"), ("database", "data_storage"),
   ("system", "system_administration"), ("monitoring", "observability"),
   ("git", "version_control"), ("ai", "artificial_intelligence"),
   ("smart", "artificial_intelligence")]

def use_case_mapping : List (String × List String) :=
  [("file", ["file_management", "data_processing"]),
   ("http", ["api_integration", "web_services"]),
   ("database", ["data_storage", "data_retrieval"]),
   ("system", ["system_administration", "monitoring"]),
   ("monitoring", ["health_monitoring", "performance_analysis"]),
   ("git", ["version_control", "code_management"]),
   ("ai", ["intelligent_processing", "automation"]),
   ("smart", ["intelligent_routing", "automation"])]

/-- `_classify_capability`: `(security_level, complexity_level, domain,
use_cases)`.  `none` when `len(metadata.get('tools', []))` raises. -/
def classify_capability (file_stem : String) (metadata : List (String × Yaml)) :
    Option (String × String × String × List String) := do
  let tools_count ← Yaml.pyLen (Yaml.getD metadata "tools" (Yaml.list []))
  pure (security_level_of file_stem,
        complexity_level_of tools_count,
        firstMatch domain_mapping (strLower file_stem) "general",
        firstMatch use_case_mapping (strLower file_stem) ["general_purpose"])

def name_keywords : List (String × List String) :=
  [("file", ["file", "read", "write", "filesystem"]),
   ("http", ["http", "request", "api", "web"]),
   ("database", ["database", "query", "data", "sql"]),
   ("system", ["system", "process", "monitor", "health"]),
   ("monitoring", ["monitor", "check", "health", "status"]),
   ("git", ["git", "version", "commit", "repository"]),
   ("smart", ["smart", "intelligent", "ai", "discovery"])]

/-- Iterating `keywords.extend(metadata['tags'])`: lists yield elements,
mappings their keys, strings their characters; other values raise. -/
def tagElems : Yaml → Option (List Yaml)
  | .list xs => some xs
  | .dict fs => some (fs.map (fun kv => Yaml.str kv.1))
  | .str s => some (s.data.map (fun c => Yaml.str (String.mk [c])))
  | _ => none

/-- `_generate_keywords`. -/
def generate_keywords (file_stem : String) (metadata : List (String × Yaml)) :
    Option (List Yaml) := do
  let base : List Yaml := [Yaml.str (charReplace file_stem '_' ' ')]
  let kws := base ++ (firstMatch name_keywords (strLower file_stem) []).map Yaml.str
  let kws ← match Yaml.getOpt metadata "tags" with
            | some t => do
                let es ← tagElems t
                pure (kws ++ es)
            | none => pure kws
  dedupPy kws

/-- `_create_enhanced_metadata`. -/
def create_enhanced_metadata (legacy_metadata : Yaml) (file_stem : String) : Option Yaml := do
  let mf ← Yaml.asDict legacy_metadata
  let nameY := Yaml.getD mf "name"
    (Yaml.str ("Enhanced " ++ pyTitle (charReplace file_stem '_' ' ')))
  let descY := Yaml.getD mf "description"
    (Yaml.str ("Enhanced " ++ file_stem ++ " with MCP 2025-06-18 compliance"))
  let authorY := Yaml.getD mf "author" (Yaml.str "MCP 2025 Enhanced Team")
  let cls ← classify_capability file_stem mf
  let keywords ← generate_keywords file_stem mf
  pure (Yaml.dict [
    ("name", Yaml.str ("Enhanced " ++ pyStr nameY)),
    ("description", Yaml.str (pyStr descY ++ " - MCP 2025-06-18 compliant with AI enhancement")),
    ("version", Yaml.str "3.0.0"),
    ("author", authorY),
    ("classification", Yaml.dict [
      ("security_level", Yaml.str cls.1),
      ("complexity_level", Yaml.str cls.2.1),
      ("domain", Yaml.str cls.2.2.1),
      ("use_cases", Yaml.list (cls.2.2.2.map Yaml.str))]),
    ("discovery_metadata", Yaml.dict [
      ("primary_keywords", Yaml.list keywords),
      ("semantic_embeddings", Yaml.bool true),
      ("llm_enhanced", Yaml.bool true),
      ("workflow_enabled", Yaml.bool true)]),
    ("mcp_capabilities", Yaml.dict [
      ("version", Yaml.str "2025-06-18"),
      ("supports_cancellation", Yaml.bool true),
      ("supports_progress", Yaml.bool true),
      ("supports_sampling", Yaml.bool false),
      ("supports_validation", Yaml.bool true),
      ("supports_elicitation", Yaml.bool false)])])

def path_validation : Yaml :=
  Yaml.dict [("path_traversal_protection", Yaml.bool true), ("security_scan", Yaml.bool true)]

def content_validation : Yaml :=
  Yaml.dict [("max_size_mb", Yaml.int 10), ("content_filter", Yaml.bool true)]

/-- The per-property mutation of `_enhance_input_schema`: a mapping-valued
property whose name contains `path` (resp. `content`) gets a `validation`
entry written into it; every other property is left alone (the `isinstance`
guard skips non-mapping values). -/
def enhance_prop (p : String × Yaml) : String × Yaml :=
  match p.2 with
  | Yaml.dict cfg =>
    if strContains (strLower p.1) "path" then
      (p.1, Yaml.dict (Yaml.setKey cfg "validation" path_validation))
    else if strContains (strLower p.1) "content" then
      (p.1, Yaml.dict (Yaml.setKey cfg "validation" content_validation))
    else p
  | _ => p

/-- `_enhance_input_schema`.  `enhanced_schema = legacy_schema.copy()` is a
shallow copy: the nested property mappings stay shared with the legacy schema,
and `prop_config['validation'] = ...` mutates them in place, while the final
`enhanced_schema['additionalProperties'] = False` lands only on the copy.  The
function is therefore modelled as returning the pair
(enhanced schema, legacy schema as it stands after the call); this assumes no
aliasing inside the parsed tree, which holds for freshly parsed YAML.
`none` models the `AttributeError` when the schema or its `properties` entry
is not a mapping. -/
def enhance_input_schema (legacy_schema : Yaml) : Option (Yaml × Yaml) := do
  let fs ← Yaml.asDict legacy_schema
  let fsMut ← match Yaml.getOpt fs "properties" with
    | some props =>
      match props with
      | Yaml.dict ps => pure (Yaml.setKey fs "properties" (Yaml.dict (ps.map enhance_prop)))
      | _ => none
    | none => pure fs
  pure (Yaml.dict (Yaml.setKey fsMut "additionalProperties" (Yaml.bool false)), Yaml.dict fsMut)

/-- `_enhance_routing`. -/
def enhance_routing (legacy_routing : Yaml) : Option Yaml := do
  let r ← Yaml.asDict legacy_routing
  let routing_type := Yaml.getD r "type" (Yaml.str "subprocess")
  let config ← Yaml.asDict (Yaml.getD r "config" (Yaml.dict []))
  let primary := Yaml.dict [
    ("command", Yaml.getD config "command" (Yaml.str "echo")),
    ("args", Yaml.getD config "args" (Yaml.list [])),
    ("timeout_seconds", Yaml.getD config "timeout" (Yaml.int 30))]
  let base := [("type", Yaml.str ("enhanced_" ++ pyStr routing_type)), ("primary", primary)]
  pure (Yaml.dict (if Yaml.eqStr routing_type "subprocess" then
    base ++ [("fallback", Yaml.dict [
      ("command", Yaml.str "echo"),
      ("args", Yaml.list [Yaml.str "\"Operation completed with fallback\""]),
      ("timeout_seconds", Yaml.int 10)])]
  else base))

/-- `_create_security_config`: the base sandbox profile with the
classification-specific in-place updates already applied (mutated keys keep
their position, new keys are appended, as Python dicts do). -/
def create_security_config (classification : String) : Yaml :=
  let resources : List (String × Yaml) :=
    if classification == "dangerous" then
      [("max_memory_mb", Yaml.int 128), ("max_cpu_percent", Yaml.int 30),
       ("max_execution_seconds", Yaml.int 30)]
    else if classification == "privileged" then
      [("max_memory_mb", Yaml.int 512), ("max_cpu_percent", Yaml.int 30),
       ("max_execution_seconds", Yaml.int 60)]
    else
      [("max_memory_mb", Yaml.int 256), ("max_cpu_percent", Yaml.int 30),
       ("max_execution_seconds", Yaml.int 60)]
  let sandbox : List (String × Yaml) :=
    [("resources", Yaml.dict resources), ("environment", Yaml.dict [("readonly_system", Yaml.bool true)])]
  let sandbox :=
    if classification == "restricted" then
      sandbox ++ [("filesystem", Yaml.dict [("denied_patterns",
                    Yaml.list [Yaml.str "/etc/*", Yaml.str "/root/*", Yaml.str "*.private"])]),
                  ("network", Yaml.dict [("allowed", Yaml.bool false)])]
    else sandbox
  let base : List (String × Yaml) :=
    [("classification", Yaml.str classification), ("sandbox", Yaml.dict sandbox)]
  Yaml.dict (
    if classification == "dangerous" then
      base ++ [("requires_approval", Yaml.bool true), ("approval_workflow", Yaml.str "security_review")]
    else if classification == "privileged" then
      base ++ [("requires_approval", Yaml.bool true)]
    else base)

def complex_tools : List String := ["database", "process", "analyze", "transform"]

def is_complex_tool (tool_name : String) : Bool :=
  complex_tools.any (fun w => strContains (strLower tool_name) w)

/-- `_create_performance_config`. -/
def create_performance_config (tool_name : String) : Yaml :=
  let is_complex := is_complex_tool tool_name
  Yaml.dict [
    ("estimated_duration", Yaml.dict [
      ("simple_operation", Yaml.int (if is_complex then 15 else 5)),
      ("complex_operation", Yaml.int (if is_complex then 120 else 30))]),
    ("complexity", Yaml.str (if is_complex then "complex" else "moderate")),
    ("supports_cancellation", Yaml.bool true),
    ("supports_progress", Yaml.bool is_complex),
    ("cache_results", Yaml.bool (strStartsWith tool_name "read" || strStartsWith tool_name "get")),
    ("cache_ttl_seconds", Yaml.int (if strStartsWith tool_name "read" then 300 else 0))]

def intent_mapping : List (String × String) :=
  [("read", "data_retrieval"), ("write", "data_modification"), ("delete", "data_removal"),
   ("list", "data_enumeration"), ("create", "data_creation"), ("update", "data_modification"),
   ("execute", "command_execution"), ("process", "data_processing"),
   ("analyze", "data_analysis"), ("monitor", "system_monitoring")]

/-- `_determine_intent`. -/
def determine_intent (tool_name : String) : String :=
  firstMatch intent_mapping (strLower tool_name) "general_operation"

def operation_keywords : List (String × List String) :=
  [("read", ["read", "retrieve", "get", "fetch"]),
   ("write", ["write", "save", "store", "put"]),
   ("delete", ["delete", "remove", "unlink"]),
   ("list", ["list", "enumerate", "scan"]),
   ("create", ["create", "make", "generate"]),
   ("update", ["update", "modify", "change"]),
   ("execute", ["execute", "run", "invoke"]),
   ("process", ["process", "transform", "convert"]),
   ("analyze", ["analyze", "examine", "inspect"]),
   ("monitor", ["monitor", "check", "watch"])]

/-- `_determine_operations` (`return operations or ['operate']`). -/
def determine_operations (tool_name : String) : List String :=
  let ops := firstMatch operation_keywords (strLower tool_name) []
  if ops.isEmpty then ["operate"] else ops

/-- `_create_ai_discovery`. -/
def create_ai_discovery (tool_name : String) (description : Yaml) : Yaml :=
  Yaml.dict [
    ("description", Yaml.str ("AI-enhanced " ++ pyStr description ++
                              " with intelligent processing and security validation")),
    ("usage_patterns", Yaml.list [
      Yaml.str ("use " ++ tool_name ++ " to \x7baction\x7d"),
      Yaml.str ("help me \x7baccomplish_task\x7d with " ++ tool_name),
      Yaml.str (tool_name ++ " for \x7bspecific_purpose\x7d")]),
    ("semantic_context", Yaml.dict [
      ("primary_intent", Yaml.str (determine_intent tool_name)),
      ("operations", Yaml.list ((determine_operations tool_name).map Yaml.str)),
      ("data_types", Yaml.list [Yaml.str "structured", Yaml.str "unstructured"])]),
    ("workflow_integration", Yaml.dict [
      ("typically_follows", Yaml.list []),
      ("typically_precedes", Yaml.list []),
      ("chain_compatibility", Yaml.list [Yaml.str "general_workflow"])])]

/-- One entry of `_create_parameter_intelligence`; `none` when
`param_config.get` raises on a non-mapping property value. -/
def param_intel (p : String × Yaml) : Option (String × Yaml) := do
  let cfg ← Yaml.asDict p.2
  let base : List (String × Yaml) := [
    ("smart_default", Yaml.getD cfg "default" Yaml.null),
    ("validation", Yaml.list [Yaml.dict [
      ("rule", Yaml.str "required_validation"),
      ("message", Yaml.str (p.1 ++ " must be provided and valid"))]])]
  pure (p.1, Yaml.dict (
    if strContains (strLower p.1) "path" then
      base ++ [("smart_suggestions", Yaml.list [Yaml.dict [
        ("pattern", Yaml.str "*"),
        ("description", Yaml.str "File system paths"),
        ("examples", Yaml.list [Yaml.str "/path/to/file", Yaml.str "./relative/path"])]])]
    else base))

/-- `_create_parameter_intelligence`. -/
def create_parameter_intelligence (input_schema : Yaml) : Option Yaml := do
  let fs ← Yaml.asDict input_schema
  let props ← Yaml.asDict (Yaml.getD fs "properties" (Yaml.dict []))
  let entries ← mapMo param_intel props
  pure (Yaml.dict entries)

/-- `_create_monitoring_config` (the three-stage `sub_operations` block is
appended to `progress_tracking` after the dict is built, hence last). -/
def create_monitoring_config (tool_name : String) : Yaml :=
  let is_complex := is_complex_tool tool_name
  let progress : List (String × Yaml) :=
    [("enabled", Yaml.bool is_complex),
     ("granularity", Yaml.str (if is_complex then "detailed" else "basic"))]
  let progress :=
    if is_complex then
      progress ++ [("sub_operations", Yaml.list [
        Yaml.dict [("id", Yaml.str "initialization"), ("name", Yaml.str "Initializing operation"),
                   ("estimated_percentage", Yaml.int 20)],
        Yaml.dict [("id", Yaml.str "processing"), ("name", Yaml.str "Processing data"),
                   ("estimated_percentage", Yaml.int 70)],
        Yaml.dict [("id", Yaml.str "finalization"), ("name", Yaml.str "Completing operation"),
                   ("estimated_percentage", Yaml.int 10)]])]
    else progress
  Yaml.dict [
    ("progress_tracking", Yaml.dict progress),
    ("cancellation", Yaml.dict [
      ("enabled", Yaml.bool true),
      ("graceful_timeout_seconds", Yaml.int (if is_complex then 30 else 10)),
      ("cleanup_required", Yaml.bool is_complex)]),
    ("metrics", Yaml.dict [
      ("track_execution_time", Yaml.bool true),
      ("track_success_rate", Yaml.bool true),
      ("custom_metrics", Yaml.list [Yaml.str (tool_name ++ "_operations_completed")])])]

def base_permissions : List String := ["tool:execute"]

def permission_mapping : List (String × List String) :=
  [("safe", base_permissions),
   ("restricted", base_permissions ++ ["security:validated"]),
   ("privileged", base_permissions ++ ["security:validated", "admin:elevated"]),
   ("dangerous", base_permissions ++ ["security:validated", "admin:elevated", "approval:required"])]

def lookupListD (m : List (String × List String)) (k : String) (d : List String) : List String :=
  match m with
  | [] => d
  | (k', v) :: rest => if k' == k then v else lookupListD rest k d

/-- `_determine_permissions`. -/
def determine_permissions (classification : String) : List String :=
  lookupListD permission_mapping classification base_permissions

/-- `_migrate_tool_to_enhanced`.  A non-string `name` value raises in Python
(an unhashable mapping key, or `.lower()` / `.startswith()` on a non-string)
before any output is produced, hence `none`. -/
def migrate_tool_to_enhanced (legacy_tool : Yaml) : Option Yaml := do
  let t ← Yaml.asDict legacy_tool
  let tool_name ← match Yaml.getD t "name" (Yaml.str "unknown_tool") with
                  | Yaml.str s => some s
                  | _ => none
  let description := Yaml.getD t "description" (Yaml.str ("Enhanced " ++ tool_name))
  let input_schema := Yaml.getD t "inputSchema" (Yaml.dict [])
  let routing := Yaml.getD t "routing" (Yaml.dict [])
  let hidden := Yaml.getD t "hidden" (Yaml.bool true)
  let security_classification :=
    lookupStrD tool_security_mapping tool_name (lookupStrD tool_security_mapping "default" "restricted")
  let schemaPair ← enhance_input_schema input_schema
  let routingE ← enhance_routing routing
  let paramIntel ← create_parameter_intelligence schemaPair.2
  pure (Yaml.dict [
    ("name", Yaml.str ("enhanced_" ++ tool_name)),
    ("core", Yaml.dict [
      ("description", Yaml.str ("AI-enhanced " ++ pyStr description ++ " with MCP 2025-06-18 compliance")),
      ("input_schema", schemaPair.1)]),
    ("execution", Yaml.dict [
      ("routing", routingE),
      ("security", create_security_config security_classification),
      ("performance", create_performance_config tool_name)]),
    ("discovery", Yaml.dict [
      ("ai_enhanced", create_ai_discovery tool_name description),
      ("parameter_intelligence", paramIntel)]),
    ("monitoring", create_monitoring_config tool_name),
    ("access", Yaml.dict [
      ("hidden", hidden),
      ("enabled", Yaml.bool true),
      ("requires_permissions", Yaml.list ((determine_permissions security_classification).map Yaml.str)),
      ("user_groups", Yaml.list (if security_classification == "safe"
                                 then [Yaml.str "all"] else [Yaml.str "administrators"])),
      ("approval_required", Yaml.bool (security_classification == "dangerous" ||
                                       security_classification == "privileged"))])])

/-- `_migrate_yaml_content`. -/
def migrate_yaml_content (legacy_content : Yaml) (file_stem : String) : Option Yaml := do
  let c ← Yaml.asDict legacy_content
  let legacy_metadata := Yaml.getD c "metadata" (Yaml.dict [])
  let legacy_tools := Yaml.getD c "tools" (Yaml.list [])
  let enhanced_metadata ← create_enhanced_metadata legacy_metadata file_stem
  let toolsL ← Yaml.pyIter legacy_tools
  let enhanced_tools ← mapMo migrate_tool_to_enhanced toolsL
  pure (Yaml.dict [("metadata", enhanced_metadata), ("tools", Yaml.list enhanced_tools)])

/-- `_is_already_enhanced`, applied to the outcome of reading and parsing the
file (`none` = reading or parsing raised; the bare `except` turns every
exception into `False`).  The `or` chain is evaluated lazily, as in Python. -/
def is_already_enhanced_content (parse : Option Yaml) : Bool :=
  match parse with
  | none => false
  | some content =>
    match content with
    | Yaml.dict fs =>
      let metadata := Yaml.getD fs "metadata" (Yaml.dict [])
      (match Yaml.pyIn "classification" metadata with
       | none => false
       | some true => true
       | some false =>
         match Yaml.pyIn "discovery_metadata" metadata with
         | none => false
         | some true => true
         | some false =>
           match Yaml.pyIn "mcp_capabilities" metadata with
           | none => false
           | some true => true
           | some false => strContains (pyStr content) "MCP 2025-06-18")
    | _ => false

end YamlMigrationTool

inductive ValidationLevel where
  | ERROR
  | WARNING
  | INFO
  | SUCCESS
  deriving DecidableEq, Repr

/-- One validation diagnostic (`ValidationResult` dataclass). -/
structure ValidationResult where
  file_path : String
  level : ValidationLevel
  message : String
  details : Option String
  deriving DecidableEq, Repr

namespace YamlMigrationValidator

def valid_security_levels : List String :=
  ["safe", "restricted", "mixed", "privileged", "dangerous", "blocked"]

def valid_complexity_levels : List String :=
  ["simple", "moderate", "complex", "varied", "very_complex"]

def required_enhanced_tool_sections : List String :=
  ["name", "core", "execution", "discovery", "monitoring", "access"]

/-- Python `', '.join(xs)`. -/
def joinComma : List String → String
  | [] => ""
  | [x] => x
  | x :: y :: rest => x ++ ", " ++ joinComma (y :: rest)

/-- `_is_enhanced_format`: metadata markers first, else at least 3 of the 5
enhanced sections on the first tool entry.  Total: every dynamic access is
guarded by an `isinstance` check in the source. -/
def is_enhanced_format (content : Yaml) : Bool :=
  match content with
  | Yaml.dict fs =>
    let metaHit :=
      match Yaml.getD fs "metadata" (Yaml.dict []) with
      | Yaml.dict mf =>
        Yaml.hasKey mf "classification" || Yaml.hasKey mf "discovery_metadata" ||
          Yaml.hasKey mf "mcp_capabilities"
      | _ => false
    if metaHit then true
    else
      match Yaml.getD fs "tools" (Yaml.list []) with
      | Yaml.list (first :: _) =>
        match first with
        | Yaml.dict tf =>
          (([Yaml.hasKey tf "core", Yaml.hasKey tf "execution", Yaml.hasKey tf "discovery",
             Yaml.hasKey tf "monitoring", Yaml.hasKey tf "access"].filter (fun b => b)).length) ≥ 3
        | _ => false
      | _ => false
  | _ => false

/-- `_validate_classification`. -/
def validate_classification (fp : String) (classification : List (String × Yaml)) :
    List ValidationResult :=
  let sec := Yaml.getD classification "security_level" Yaml.null
  let r1 : List ValidationResult :=
    if Yaml.truthy sec && !(valid_security_levels.any (fun s => Yaml.eqStr sec s)) then
      [⟨fp, ValidationLevel.ERROR,
        "Invalid security_level: " ++ pyStr sec ++ ". Must be one of: " ++
          joinComma valid_security_levels, none⟩]
    else []
  let comp := Yaml.getD classification "complexity_level" Yaml.null
  let r2 : List ValidationResult :=
    if Yaml.truthy comp && !(valid_complexity_levels.any (fun s => Yaml.eqStr comp s)) then
      [⟨fp, ValidationLevel.ERROR,
        "Invalid complexity_level: " ++ pyStr comp ++ ". Must be one of: " ++
          joinComma valid_complexity_levels, none⟩]
    else []
  r1 ++ r2

/-- `_validate_discovery_metadata` (WARNING only). -/
def validate_discovery_metadata (fp : String) (dm : List (String × Yaml)) :
    List ValidationResult :=
  let missing := ["primary_keywords", "semantic_embeddings", "llm_enhanced",
                  "workflow_enabled"].filter (fun f => !Yaml.hasKey dm f)
  if !missing.isEmpty then
    [⟨fp, ValidationLevel.WARNING,
      "Missing recommended discovery_metadata fields: " ++ joinComma missing, none⟩]
  else []

/-- `_validate_mcp_capabilities`. -/
def validate_mcp_capabilities (fp : String) (mc : List (String × Yaml)) :
    List ValidationResult :=
  let version := Yaml.getD mc "version" Yaml.null
  let r1 : List ValidationResult :=
    if !(Yaml.eqStr version "2025-06-18") then
      [⟨fp, ValidationLevel.ERROR,
        "Invalid MCP version: " ++ pyStr version ++ ". Expected: 2025-06-18", none⟩]
    else []
  let missing := ["supports_cancellation", "supports_progress", "supports_sampling",
                  "supports_validation", "supports_elicitation"].filter (fun c => !Yaml.hasKey mc c)
  let r2 : List ValidationResult :=
    if !missing.isEmpty then
      [⟨fp, ValidationLevel.WARNING,
        "Missing MCP capability declarations: " ++ joinComma missing, none⟩]
    else []
  r1 ++ r2

/-- `_validate_enhanced_metadata`. -/
def validate_enhanced_metadata (fp : String) (metadata : Yaml) : List ValidationResult :=
  match metadata with
  | Yaml.dict mf =>
    let missing := ["name", "description", "version", "author"].filter (fun f =>
      match Yaml.getOpt mf f with
      | none => true
      | some v => !Yaml.truthy v)
    let r1 : List ValidationResult :=
      if !missing.isEmpty then
        [⟨fp, ValidationLevel.ERROR,
          "Missing required metadata fields: " ++ joinComma missing, none⟩]
      else []
    let r2 := match Yaml.getD mf "classification" (Yaml.dict []) with
              | Yaml.dict cf => validate_classification fp cf
              | _ => []
    let r3 := match Yaml.getD mf "discovery_metadata" (Yaml.dict []) with
              | Yaml.dict df => validate_discovery_metadata fp df
              | _ => []
    let r4 := match Yaml.getD mf "mcp_capabilities" (Yaml.dict []) with
              | Yaml.dict cf => validate_mcp_capabilities fp cf
              | _ => []
    r1 ++ r2 ++ r3 ++ r4
  | _ => [⟨fp, ValidationLevel.ERROR, "Enhanced format requires metadata object", none⟩]

/-- `_validate_tool_core`; `none` when `core.get` raises on a non-mapping. -/
def validate_tool_core (fp tool_name : String) (core : Yaml) :
    Option (List ValidationResult) := do
  let c ← Yaml.asDict core
  let r1 : List ValidationResult :=
    if !Yaml.truthy (Yaml.getD c "description" Yaml.null) then
      [⟨fp, ValidationLevel.ERROR,
        "Tool \x27" ++ tool_name ++ "\x27: Core section missing description", none⟩]
    else []
  let input_schema := Yaml.getD c "input_schema" Yaml.null
  let bad := !Yaml.truthy input_schema ||
             (match input_schema with | Yaml.dict _ => false | _ => true)
  let r2 : List ValidationResult :=
    if bad then
      [⟨fp, ValidationLevel.ERROR,
        "Tool \x27" ++ tool_name ++ "\x27: Core section missing valid input_schema", none⟩]
    else []
  pure (r1 ++ r2)

/-- `_validate_tool_execution`. -/
def validate_tool_execution (fp tool_name : String) (execution : Yaml) :
    Option (List ValidationResult) := do
  let e ← Yaml.asDict execution
  let routing ← Yaml.asDict (Yaml.getD e "routing" (Yaml.dict []))
  let r1 : List ValidationResult :=
    if !Yaml.truthy (Yaml.getD routing "type" Yaml.null) then
      [⟨fp, ValidationLevel.ERROR,
        "Tool \x27" ++ tool_name ++ "\x27: Execution section missing routing type", none⟩]
    else []
  let security ← Yaml.asDict (Yaml.getD e "security" (Yaml.dict []))
  let r2 : List ValidationResult :=
    if !Yaml.truthy (Yaml.getD security "classification" Yaml.null) then
      [⟨fp, ValidationLevel.WARNING,
        "Tool \x27" ++ tool_name ++ "\x27: Execution section missing security classification", none⟩]
    else []
  pure (r1 ++ r2)

/-- `_validate_tool_discovery`. -/
def validate_tool_discovery (fp tool_name : String) (discovery : Yaml) :
    Option (List ValidationResult) := do
  let d ← Yaml.asDict discovery
  let ai ← Yaml.asDict (Yaml.getD d "ai_enhanced" (Yaml.dict []))
  pure (if !Yaml.truthy (Yaml.getD ai "description" Yaml.null) then
    [⟨fp, ValidationLevel.WARNING,
      "Tool \x27" ++ tool_name ++ "\x27: Discovery section missing AI-enhanced description", none⟩]
  else [])

/-- `_validate_tool_monitoring` (uses `in`, not `.get`, on the sub-blocks). -/
def validate_tool_monitoring (fp tool_name : String) (monitoring : Yaml) :
    Option (List ValidationResult) := do
  let m ← Yaml.asDict monitoring
  let b1 ← Yaml.pyIn "enabled" (Yaml.getD m "progress_tracking" (Yaml.dict []))
  let r1 : List ValidationResult :=
    if !b1 then
      [⟨fp, ValidationLevel.WARNING,
        "Tool \x27" ++ tool_name ++ "\x27: Monitoring section missing progress_tracking.enabled", none⟩]
    else []
  let b2 ← Yaml.pyIn "enabled" (Yaml.getD m "cancellation" (Yaml.dict []))
  let r2 : List ValidationResult :=
    if !b2 then
      [⟨fp, ValidationLevel.WARNING,
        "Tool \x27" ++ tool_name ++ "\x27: Monitoring section missing cancellation.enabled", none⟩]
    else []
  pure (r1 ++ r2)

/-- `_validate_tool_access`. -/
def validate_tool_access (fp tool_name : String) (access : Yaml) :
    Option (List ValidationResult) := do
  let flags ← mapMo (fun f => do
    let b ← Yaml.pyIn f access
    pure (f, b)) ["hidden", "enabled", "requires_permissions", "user_groups"]
  let missing := (flags.filter (fun fb => !fb.2)).map (fun fb => fb.1)
  pure (if !missing.isEmpty then
    [⟨fp, ValidationLevel.WARNING,
      "Tool \x27" ++ tool_name ++ "\x27: Access section missing fields: " ++ joinComma missing, none⟩]
  else [])

/-- `_validate_enhanced_tool`. -/
def validate_enhanced_tool (fp : String) (tool : Yaml) (index : Nat) :
    Option (List ValidationResult) := do
  let t ← Yaml.asDict tool
  let tool_name := pyStr (Yaml.getD t "name" (Yaml.str ("tool_" ++ natReprPy index)))
  let missing := required_enhanced_tool_sections.filter (fun s => !Yaml.hasKey t s)
  if !missing.isEmpty then
    pure [⟨fp, ValidationLevel.ERROR,
      "Tool \x27" ++ tool_name ++ "\x27: Missing required sections: " ++ joinComma missing, none⟩]
  else do
    let r1 ← validate_tool_core fp tool_name (Yaml.getD t "core" (Yaml.dict []))
    let r2 ← validate_tool_execution fp tool_name (Yaml.getD t "execution" (Yaml.dict []))
    let r3 ← validate_tool_discovery fp tool_name (Yaml.getD t "discovery" (Yaml.dict []))
    let r4 ← validate_tool_monitoring fp tool_name (Yaml.getD t "monitoring" (Yaml.dict []))
    let r5 ← validate_tool_access fp tool_name (Yaml.getD t "access" (Yaml.dict []))
    pure (r1 ++ r2 ++ r3 ++ r4 ++ r5)

/-- The tools half of `_validate_enhanced_format`. -/
def validate_enhanced_tools_part (fp : String) (tools : Yaml) :
    Option (List ValidationResult) :=
  if !Yaml.truthy tools then
    some [⟨fp, ValidationLevel.ERROR, "Enhanced format must contain at least one tool", none⟩]
  else do
    let items ← Yaml.pyIter tools
    let rss ← mapMo (fun iv => validate_enhanced_tool fp iv.2 iv.1) items.enum
    pure rss.flatten

/-- `_validate_enhanced_format`. -/
def validate_enhanced_format (fp : String) (content : Yaml) :
    Option (List ValidationResult) := do
  let c ← Yaml.asDict content
  let metaResults := validate_enhanced_metadata fp (Yaml.getD c "metadata" (Yaml.dict []))
  let tools := Yaml.getD c "tools" (Yaml.list [])
  if !Yaml.truthy tools then
    pure (metaResults ++
      [⟨fp, ValidationLevel.ERROR, "Enhanced format must contain at least one tool", none⟩])
  else do
    let tl ← validate_enhanced_tools_part fp tools
    pure (metaResults ++ tl)

/-- One tool of `_validate_legacy_format`. -/
def validate_legacy_tool (fp : String) (i : Nat) (tool : Yaml) :
    Option (List ValidationResult) := do
  let t ← Yaml.asDict tool
  let tool_name := pyStr (Yaml.getD t "name" (Yaml.str ("tool_" ++ natReprPy i)))
  let r1 : List ValidationResult :=
    if !Yaml.truthy (Yaml.getD t "name" Yaml.null) then
      [⟨fp, ValidationLevel.ERROR, "Tool " ++ natReprPy i ++ ": Missing name", none⟩]
    else []
  let r2 : List ValidationResult :=
    if !Yaml.truthy (Yaml.getD t "description" Yaml.null) then
      [⟨fp, ValidationLevel.ERROR, "Tool \x27" ++ tool_name ++ "\x27: Missing description", none⟩]
    else []
  let r3 : List ValidationResult :=
    if !Yaml.truthy (Yaml.getD t "inputSchema" Yaml.null) then
      [⟨fp, ValidationLevel.ERROR, "Tool \x27" ++ tool_name ++ "\x27: Missing inputSchema", none⟩]
    else []
  let routing ← Yaml.asDict (Yaml.getD t "routing" (Yaml.dict []))
  let r4 : List ValidationResult :=
    if !Yaml.truthy (Yaml.getD routing "type" Yaml.null) then
      [⟨fp, ValidationLevel.ERROR, "Tool \x27" ++ tool_name ++ "\x27: Missing routing type", none⟩]
    else []
  pure (r1 ++ r2 ++ r3 ++ r4)

/-- `_validate_legacy_format`. -/
def validate_legacy_format (fp : String) (content : Yaml) :
    Option (List ValidationResult) := do
  let c ← Yaml.asDict content
  let tools := Yaml.getD c "tools" (Yaml.list [])
  if !Yaml.truthy tools then
    pure [⟨fp, ValidationLevel.ERROR, "Legacy format must contain at least one tool", none⟩]
  else do
    let items ← Yaml.pyIter tools
    let rss ← mapMo (fun iv => validate_legacy_tool fp iv.1 iv.2) items.enum
    pure rss.flatten

/-- Outcome of opening and `yaml.safe_load`-ing one file. -/
inductive ParseOutcome where
  | parsed : Yaml → ParseOutcome
  | yamlError : String → ParseOutcome
  | readError : String → ParseOutcome

/-- `validate_file` after the existence check: syntax phase, format detection,
then the format-specific structural phase.  `strict_mode` is the constructor
argument stored by `__init__`; no check consults it.  `none` models an
uncaught exception escaping the validator. -/
def validate_file_content (strict_mode : Bool) (fp : String) (outcome : ParseOutcome) :
    Option (List ValidationResult) :=
  match outcome with
  | ParseOutcome.yamlError e => some [⟨fp, ValidationLevel.ERROR, "Invalid YAML syntax", some e⟩]
  | ParseOutcome.readError e => some [⟨fp, ValidationLevel.ERROR, "Failed to read file", some e⟩]
  | ParseOutcome.parsed content =>
    let is_enhanced := is_enhanced_format content
    let info : List ValidationResult :=
      [⟨fp, ValidationLevel.INFO,
        "Detected format: " ++ (if is_enhanced then "Enhanced MCP 2025-06-18" else "Legacy"), none⟩]
    let tail := if is_enhanced then validate_enhanced_format fp content
                else validate_legacy_format fp content
    tail.map (fun rs => info ++ rs)

def errorsOf (rs : List ValidationResult) : List ValidationResult :=
  rs.filter (fun r => r.level == ValidationLevel.ERROR)

def warningsOf (rs : List ValidationResult) : List ValidationResult :=
  rs.filter (fun r => r.level == ValidationLevel.WARNING)

/-- The boolean verdict returned by `print_results`: any ERROR → failure;
only warnings, or nothing → pass.  Like the checks, it never reads
`strict_mode`. -/
def print_results_verdict (strict_mode : Bool) (rs : List ValidationResult) : Bool :=
  if !(errorsOf rs).isEmpty then false else true

end YamlMigrationValidator

/-- One file of a batch-migration run: its path, its stem, the outcome of
reading + parsing it (`none` = raises), and the text of the exception shown
when migrating it fails (environment-dependent, carried as data). -/
structure FileRec where
  path : String
  stem : String
  parse : Option Yaml
  excText : String

/-- The `migration_stats` dictionary. -/
structure MigrationStats where
  files_processed : Nat
  files_migrated : Nat
  files_skipped : Nat
  errors : List String
  deriving DecidableEq, Repr

namespace YamlMigrationTool

def init_stats : MigrationStats := ⟨0, 0, 0, []⟩

/-- The body of `migrate_file` on an existing input file: parse (may raise),
then `_migrate_yaml_content` (may raise); `some` = the enhanced tree that gets
serialized and written. -/
def migrate_file_outcome (f : FileRec) : Option Yaml := do
  let c ← f.parse
  migrate_yaml_content c f.stem

def migrate_error_message (f : FileRec) : String :=
  "Failed to migrate " ++ f.path ++ ": " ++ f.excText

/-- One iteration of the `migrate_directory` per-file loop: skip (and count)
already-enhanced files; otherwise run `migrate_file`, which on success bumps
`files_processed` and `files_migrated` together, and on any exception appends
one message to `errors` (the `try`/`except` confines the failure to this
file). -/
def migrate_directory_step (stats : MigrationStats) (f : FileRec) : MigrationStats :=
  if is_already_enhanced_content f.parse then
    ⟨stats.files_processed, stats.files_migrated, stats.files_skipped + 1, stats.errors⟩
  else
    match migrate_file_outcome f with
    | some _ => ⟨stats.files_processed + 1, stats.files_migrated + 1, stats.files_skipped, stats.errors⟩
    | none => ⟨stats.files_processed, stats.files_migrated, stats.files_skipped,
               stats.errors ++ [migrate_error_message f]⟩

/-- `migrate_directory`: a missing input root raises `FileNotFoundError`
before any file is touched (`none`); otherwise every enumerated file goes
through the loop. -/
def migrate_directory (input_exists : Bool) (files : List FileRec) : Option MigrationStats :=
  if !input_exists then none
  else some (files.foldl migrate_directory_step init_stats)

end YamlMigrationTool

/-! Theorem-side definitions: projections, the well-formedness predicates the
claims quantify over, and the concrete manifests used as inputs. -/

/-- Projection `v[k]` for statements: the value under key `k` of a mapping,
`null` when absent or when `v` is not a mapping. -/
def yget (v : Yaml) (k : String) : Yaml :=
  match v with
  | Yaml.dict fs => Yaml.getD fs k Yaml.null
  | _ => Yaml.null

namespace YamlMigrationTool

/-- The privileged bucket test of `_classify_capability`. -/
def privileged_trigger (file_stem : String) : Bool :=
  ["admin", "system", "root", "security"].any (fun w => strContains (strLower file_stem) w)

/-- The restricted bucket test of `_classify_capability`. -/
def restricted_trigger (file_stem : String) : Bool :=
  ["file", "database", "network"].any (fun w => strContains (strLower file_stem) w)

/-- The dangerous bucket test of `_classify_capability`. -/
def dangerous_trigger (file_stem : String) : Bool :=
  ["delete", "remove", "execute"].any (fun w => strContains (strLower file_stem) w)

/-- Whether a batch file is skipped as already enhanced. -/
def file_skipped (f : FileRec) : Bool := is_already_enhanced_content f.parse

/-- Whether a batch file fails to migrate (an exception reaches the per-file
`except`). -/
def file_failed (f : FileRec) : Bool :=
  !file_skipped f && (migrate_file_outcome f).isNone

/-- Whether a batch file migrates successfully. -/
def file_migrated_ok (f : FileRec) : Bool :=
  !file_skipped f && (migrate_file_outcome f).isSome

end YamlMigrationTool

/-- A property table all of whose values are mappings (what JSON-Schema
`properties` blocks look like; anything else makes
`_create_parameter_intelligence` raise). -/
def wf_props : Yaml → Bool
  | Yaml.dict ps => ps.all (fun p => match p.2 with | Yaml.dict _ => true | _ => false)
  | _ => false

/-- A legacy `inputSchema`: a mapping whose `properties` entry, when present,
is a mapping of mappings. -/
def wf_input_schema (s : Yaml) : Bool :=
  match s with
  | Yaml.dict fs =>
    match Yaml.getOpt fs "properties" with
    | none => true
    | some p => wf_props p
  | _ => false

/-- A legacy `routing` block: a mapping carrying `type`, whose `config` entry,
when present, is a mapping. -/
def wf_routing (r : Yaml) : Bool :=
  match r with
  | Yaml.dict fs =>
    Yaml.hasKey fs "type" &&
    (match Yaml.getOpt fs "config" with
     | none => true
     | some c => (Yaml.asDict c).isSome)
  | _ => false

/-- A well-formed legacy tool: a mapping carrying a string `name`, a
`description`, a well-formed `inputSchema` and a well-formed `routing`. -/
def wf_tool (t : Yaml) : Bool :=
  match t with
  | Yaml.dict fs =>
    (match Yaml.getOpt fs "name" with | some (Yaml.str _) => true | _ => false) &&
    Yaml.hasKey fs "description" &&
    (match Yaml.getOpt fs "inputSchema" with | some s => wf_input_schema s | none => false) &&
    (match Yaml.getOpt fs "routing" with | some r => wf_routing r | none => false)
  | _ => false

/-- A legacy metadata block migration can process: a mapping whose `tools`
entry, when present, has a `len()`, and whose `tags` entry, when present, is
iterable with hashable elements. -/
def wf_metadata (m : Yaml) : Bool :=
  match m with
  | Yaml.dict fs =>
    (match Yaml.getOpt fs "tools" with
     | none => true
     | some t => (Yaml.pyLen t).isSome) &&
    (match Yaml.getOpt fs "tags" with
     | none => true
     | some t =>
       match t with
       | Yaml.list xs => xs.all pyHashable
       | Yaml.dict _ => true
       | Yaml.str _ => true
       | _ => false)
  | _ => false

/-- The extra condition the counterexample to C1 forces: when the legacy
metadata binds `author`, the bound value is truthy. -/
def author_ok (m : Yaml) : Bool :=
  match m with
  | Yaml.dict fs =>
    match Yaml.getOpt fs "author" with
    | none => true
    | some a => Yaml.truthy a
  | _ => false

/-- The legacy metadata block of a manifest (`content.get('metadata', {})`). -/
def legacy_metadata_of (content : Yaml) : Yaml :=
  match content with
  | Yaml.dict fs => Yaml.getD fs "metadata" (Yaml.dict [])
  | _ => Yaml.dict []

/-- A well-formed legacy manifest: the claim's conditions (non-empty tools
list, every tool carrying name / description / inputSchema / routing.type)
together with the data-model typing of those fields (§3 of the spec). -/
def wf_legacy (content : Yaml) : Bool :=
  match content with
  | Yaml.dict fs =>
    wf_metadata (Yaml.getD fs "metadata" (Yaml.dict [])) &&
    (match Yaml.getOpt fs "tools" with
     | some (Yaml.list ts) => !ts.isEmpty && ts.all wf_tool
     | _ => false)
  | _ => false

/-- Well-formedness of a legacy manifest exactly as the C1 claim words it:
the tools list is non-empty and every tool carries `name`, `description`,
`inputSchema`, and `routing.type`. -/
def claim_wf_legacy (content : Yaml) : Bool :=
  match content with
  | Yaml.dict fs =>
    match Yaml.getOpt fs "tools" with
    | some (Yaml.list ts) =>
      !ts.isEmpty && ts.all (fun t =>
        match t with
        | Yaml.dict tf =>
          Yaml.hasKey tf "name" && Yaml.hasKey tf "description" &&
          Yaml.hasKey tf "inputSchema" &&
          (match Yaml.getOpt tf "routing" with
           | some (Yaml.dict rf) => Yaml.hasKey rf "type"
           | _ => false)
        | _ => false)
    | _ => false
  | _ => false

/-- C1 counterexample input: well-formed in the claim's sense, but the legacy
metadata binds `author` to the empty string. -/
def c1_cx_manifest : Yaml := Yaml.dict [
  ("metadata", Yaml.dict [("author", Yaml.str "")]),
  ("tools", Yaml.list [Yaml.dict [
    ("name", Yaml.str "read_file"),
    ("description", Yaml.str "Reads a file"),
    ("inputSchema", Yaml.dict [("type", Yaml.str "object")]),
    ("routing", Yaml.dict [("type", Yaml.str "subprocess")])]])]

/-- C1 witness input: the end-to-end scenario manifest of spec §8. -/
def c1_wit_manifest : Yaml := Yaml.dict [
  ("metadata", Yaml.dict [
    ("name", Yaml.str "File Operations"),
    ("description", Yaml.str "Basic file operations"),
    ("author", Yaml.str "Capabilities Team")]),
  ("tools", Yaml.list [Yaml.dict [
    ("name", Yaml.str "read_file"),
    ("description", Yaml.str "Reads a file"),
    ("inputSchema", Yaml.dict [
      ("type", Yaml.str "object"),
      ("properties", Yaml.dict [("path", Yaml.dict [("type", Yaml.str "string")])])]),
    ("routing", Yaml.dict [
      ("type", Yaml.str "subprocess"),
      ("config", Yaml.dict [
        ("command", Yaml.str "cat"),
        ("args", Yaml.list [Yaml.str "\x7bpath\x7d"])])]),
    ("hidden", Yaml.bool true)]])]

/-- C3 counterexample input: no metadata markers, no `MCP 2025-06-18` string,
but a first tool with three of the five enhanced sections. -/
def c3_manifest : Yaml := Yaml.dict [
  ("tools", Yaml.list [Yaml.dict [
    ("core", Yaml.dict []), ("execution", Yaml.dict []), ("discovery", Yaml.dict [])]])]

/-- C6 counterexample input: a legacy input schema with a `path` property. -/
def c6_schema : Yaml := Yaml.dict [
  ("type", Yaml.str "object"),
  ("properties", Yaml.dict [("path", Yaml.dict [("type", Yaml.str "string")])])]

/-- A minimal enhanced tool that validates with no diagnostics (C5 witness). -/
def c5_wit_tool : Yaml := Yaml.dict [
  ("name", Yaml.str "t"),
  ("core", Yaml.dict [
    ("description", Yaml.str "d"),
    ("input_schema", Yaml.dict [("type", Yaml.str "object")])]),
  ("execution", Yaml.dict [
    ("routing", Yaml.dict [("type", Yaml.str "enhanced_subprocess")]),
    ("security", Yaml.dict [("classification", Yaml.str "safe")])]),
  ("discovery", Yaml.dict [("ai_enhanced", Yaml.dict [("description", Yaml.str "d")])]),
  ("monitoring", Yaml.dict [
    ("progress_tracking", Yaml.dict [("enabled", Yaml.bool false)]),
    ("cancellation", Yaml.dict [("enabled", Yaml.bool true)])]),
  ("access", Yaml.dict [
    ("hidden", Yaml.bool true), ("enabled", Yaml.bool true),
    ("requires_permissions", Yaml.list [Yaml.str "tool:execute"]),
    ("user_groups", Yaml.list [Yaml.str "all"])])]

/-- C5 witness metadata fields: well-formed except `security_level = unsafe`. -/
def c5_wit_mf : List (String × Yaml) := [
  ("name", Yaml.str "Enhanced X"),
  ("description", Yaml.str "D"),
  ("version", Yaml.str "3.0.0"),
  ("author", Yaml.str "A"),
  ("classification", Yaml.dict [("security_level", Yaml.str "unsafe")]),
  ("discovery_metadata", Yaml.dict [
    ("primary_keywords", Yaml.list []), ("semantic_embeddings", Yaml.bool true),
    ("llm_enhanced", Yaml.bool true), ("workflow_enabled", Yaml.bool true)]),
  ("mcp_capabilities", Yaml.dict [
    ("version", Yaml.str "2025-06-18"),
    ("supports_cancellation", Yaml.bool true), ("supports_progress", Yaml.bool true),
    ("supports_sampling", Yaml.bool false), ("supports_validation", Yaml.bool true),
    ("supports_elicitation", Yaml.bool false)])]

/-- Batch-run file that migrates successfully (C9/C10 witnesses). -/
def fileA : FileRec := ⟨"a.yaml", "a", some c1_wit_manifest, "err"⟩

/-- Batch-run file whose read/parse raises (C9/C10 witnesses). -/
def fileB : FileRec := ⟨"b.yaml", "b", none, "boom"⟩

/-- Batch-run file already in enhanced format, hence skipped (C9/C10). -/
def fileC : FileRec :=
  ⟨"c.yaml", "c", some (Yaml.dict [("metadata", Yaml.dict [("classification", Yaml.dict [])])]), "err"⟩

/-! Shared helper lemmas. -/

theorem security_level_of_ite (stem : String) :
    YamlMigrationTool.security_level_of stem =
      (if YamlMigrationTool.privileged_trigger stem then "privileged"
       else if YamlMigrationTool.restricted_trigger stem then "restricted"
       else if YamlMigrationTool.dangerous_trigger stem then "dangerous"
       else "safe") := rfl

theorem cpc_cache_fields (name : String) :
    yget (YamlMigrationTool.create_performance_config name) "cache_results" =
      Yaml.bool (strStartsWith name "read" || strStartsWith name "get") ∧
    yget (YamlMigrationTool.create_performance_config name) "cache_ttl_seconds" =
      Yaml.int (if strStartsWith name "read" then 300 else 0) :=
  ⟨rfl, rfl⟩

/-- C2 (corrected): the four buckets are tested in the order privileged,
restricted, dangerous, with fall-through to safe, and `admin_tools` maps to
`privileged`; but `delete_file` maps to `restricted`, not `dangerous`,
because `file` matches the restricted bucket before the dangerous bucket is
reached. -/
theorem c2_bucket_order_amended :
    (∀ stem : String,
      (YamlMigrationTool.privileged_trigger stem = true →
        YamlMigrationTool.security_level_of stem = "privileged") ∧
      (YamlMigrationTool.privileged_trigger stem = false →
        YamlMigrationTool.restricted_trigger stem = true →
        YamlMigrationTool.security_level_of stem = "restricted") ∧
      (YamlMigrationTool.privileged_trigger stem = false →
        YamlMigrationTool.restricted_trigger stem = false →
        YamlMigrationTool.dangerous_trigger stem = true →
        YamlMigrationTool.security_level_of stem = "dangerous") ∧
      (YamlMigrationTool.privileged_trigger stem = false →
        YamlMigrationTool.restricted_trigger stem = false →
        YamlMigrationTool.dangerous_trigger stem = false →
        YamlMigrationTool.security_level_of stem = "safe")) ∧
    YamlMigrationTool.security_level_of "admin_tools" = "privileged" ∧
    YamlMigrationTool.security_level_of "delete_file" = "restricted" := by
  refine ⟨fun stem => ⟨fun h1 => ?_, fun h1 h2 => ?_, fun h1 h2 h3 => ?_, fun h1 h2 h3 => ?_⟩,
          rfl, rfl⟩ <;>
    rw [security_level_of_ite] <;> simp [*]

/-- C2 counterexample: the claim says `delete_file` yields `dangerous`, but
the classifier returns `restricted` for it (the `file` trigger of the
restricted bucket fires first). -/
theorem c2_counterexample :
    YamlMigrationTool.security_level_of "delete_file" = "restricted" ∧
    ¬ YamlMigrationTool.security_level_of "delete_file" = "dangerous" := by
  refine ⟨rfl, ?_⟩
  intro h
  exact absurd h (by decide)

/-- Witness for C2: the amended theorem applied to the identifier
`admin_tools`. -/
theorem c2_witness :
    YamlMigrationTool.privileged_trigger "admin_tools" = true ∧
    YamlMigrationTool.security_level_of "admin_tools" = "privileged" :=
  ⟨by decide, (c2_bucket_order_amended.1 "admin_tools").1 (by decide)⟩

/-- C4: the generated `requires_permissions` lists grow monotonically along
safe ⊆ restricted ⊆ privileged ⊆ dangerous, and `safe` gets only the base
execute permission. -/
theorem c4_monotonic_permissions :
    YamlMigrationTool.determine_permissions "safe" = ["tool:execute"] ∧
    YamlMigrationTool.determine_permissions "safe" ⊆
      YamlMigrationTool.determine_permissions "restricted" ∧
    YamlMigrationTool.determine_permissions "restricted" ⊆
      YamlMigrationTool.determine_permissions "privileged" ∧
    YamlMigrationTool.determine_permissions "privileged" ⊆
      YamlMigrationTool.determine_permissions "dangerous" := by
  refine ⟨rfl, ?_, ?_, ?_⟩ <;> decide

/-- C7 counterexample: `get_status` is get-prefixed and is marked cacheable,
but its `cache_ttl_seconds` is 0, not the 300 the claim requires. -/
theorem c7_counterexample :
    strStartsWith "get_status" "get" = true ∧
    yget (YamlMigrationTool.create_performance_config "get_status") "cache_results" =
      Yaml.bool true ∧
    yget (YamlMigrationTool.create_performance_config "get_status") "cache_ttl_seconds" =
      Yaml.int 0 ∧
    ¬ (Yaml.int 0 = Yaml.int 300) := by
  refine ⟨rfl, rfl, rfl, ?_⟩
  intro h
  injection h with h2
  exact absurd h2 (by decide)

/-- C7 (corrected): read-prefixed tools are cacheable with a 300s TTL;
get-prefixed (but not read-prefixed) tools are marked cacheable but get TTL
0; all other tools are not cacheable and get TTL 0. -/
theorem c7_cache_amended (name : String) :
    (strStartsWith name "read" = true →
      yget (YamlMigrationTool.create_performance_config name) "cache_results" = Yaml.bool true ∧
      yget (YamlMigrationTool.create_performance_config name) "cache_ttl_seconds" = Yaml.int 300) ∧
    (strStartsWith name "read" = false → strStartsWith name "get" = true →
      yget (YamlMigrationTool.create_performance_config name) "cache_results" = Yaml.bool true ∧
      yget (YamlMigrationTool.create_performance_config name) "cache_ttl_seconds" = Yaml.int 0) ∧
    (strStartsWith name "read" = false → strStartsWith name "get" = false →
      yget (YamlMigrationTool.create_performance_config name) "cache_results" = Yaml.bool false ∧
      yget (YamlMigrationTool.create_performance_config name) "cache_ttl_seconds" = Yaml.int 0) := by
  refine ⟨fun h1 => ⟨?_, ?_⟩, fun h1 h2 => ⟨?_, ?_⟩, fun h1 h2 => ⟨?_, ?_⟩⟩ <;>
    first
      | (rw [(cpc_cache_fields name).1]; simp [*])
      | (rw [(cpc_cache_fields name).2]; simp [*])

/-- Witness for C7: the amended theorem applied to `read_file`. -/
theorem c7_witness :
    strStartsWith "read_file" "read" = true ∧
    yget (YamlMigrationTool.create_performance_config "read_file") "cache_results" =
      Yaml.bool true ∧
    yget (YamlMigrationTool.create_performance_config "read_file") "cache_ttl_seconds" =
      Yaml.int 300 := by
  refine ⟨by decide, ?_, ?_⟩
  · exact ((c7_cache_amended "read_file").1 (by decide)).1
  · exact ((c7_cache_amended "read_file").1 (by decide)).2

/-- C8: `strict_mode` has no observable effect: for every file path and
parse outcome the validator produces the same diagnostics under both modes,
and the pass/fail verdict over any diagnostic list is the same under both
modes. -/
theorem c8_strict_mode_no_effect :
    ∀ (fp : String) (outcome : YamlMigrationValidator.ParseOutcome)
      (rs : List ValidationResult),
      YamlMigrationValidator.validate_file_content true fp outcome =
        YamlMigrationValidator.validate_file_content false fp outcome ∧
      YamlMigrationValidator.print_results_verdict true rs =
        YamlMigrationValidator.print_results_verdict false rs :=
  fun _ _ _ => ⟨rfl, rfl⟩

/-- Witness for C8: the theorem applied to a concrete manifest and list. -/
theorem c8_witness :
    YamlMigrationValidator.validate_file_content true "f"
        (YamlMigrationValidator.ParseOutcome.parsed c1_wit_manifest) =
      YamlMigrationValidator.validate_file_content false "f"
        (YamlMigrationValidator.ParseOutcome.parsed c1_wit_manifest) :=
  (c8_strict_mode_no_effect "f" (YamlMigrationValidator.ParseOutcome.parsed c1_wit_manifest) []).1
theorem Yaml.getD_setKey_self (l : List (String × Yaml)) (k : String) (v d : Yaml) :
    Yaml.getD (Yaml.setKey l k v) k d = v := by
  induction l with
  | nil => simp [Yaml.setKey, Yaml.getD]
  | cons p rest ih =>
    obtain ⟨k', v'⟩ := p
    by_cases h : k' = k
    · simp [Yaml.setKey, Yaml.getD, h]
    · simp [Yaml.setKey, Yaml.getD, h, ih]

theorem Yaml.getD_setKey_ne (l : List (String × Yaml)) (k k' : String) (v d : Yaml)
    (h : ¬ k' = k) :
    Yaml.getD (Yaml.setKey l k v) k' d = Yaml.getD l k' d := by
  have h' : ¬ k = k' := fun hh => h hh.symm
  induction l with
  | nil => simp [Yaml.setKey, Yaml.getD, h']
  | cons p rest ih =>
    obtain ⟨k0, v0⟩ := p
    by_cases h1 : k0 = k
    · have h2 : ¬ k0 = k' := fun hh => h' (h1 ▸ hh)
      simp [Yaml.setKey, Yaml.getD, h1, h2, h']
    · by_cases h2 : k0 = k'
      · simp [Yaml.setKey, Yaml.getD, h1, h2, h]
      · simp [Yaml.setKey, Yaml.getD, h1, h2, ih]

theorem Yaml.hasKey_setKey_ne (l : List (String × Yaml)) (k k' : String) (v : Yaml)
    (h : ¬ k' = k) :
    Yaml.hasKey (Yaml.setKey l k v) k' = Yaml.hasKey l k' := by
  have h' : ¬ k = k' := fun hh => h hh.symm
  induction l with
  | nil => simp [Yaml.setKey, Yaml.hasKey, h']
  | cons p rest ih =>
    obtain ⟨k0, v0⟩ := p
    by_cases h1 : k0 = k
    · simp [Yaml.setKey, Yaml.hasKey, h1, h']
    · have ih' : ((Yaml.setKey rest k v).any fun kv => kv.1 == k') =
          rest.any fun kv => kv.1 == k' := by
        simpa [Yaml.hasKey] using ih
      simp [Yaml.setKey, Yaml.hasKey, h1, ih']

/-- C3 counterexample: a manifest whose first tool has three of the five
enhanced sections but whose metadata has no marker keys: the validator's
detector says enhanced, the migration orchestrator's check says not. -/
theorem c3_counterexample :
    YamlMigrationValidator.is_enhanced_format c3_manifest = true ∧
    YamlMigrationTool.is_already_enhanced_content (some c3_manifest) = false ∧
    ¬ (YamlMigrationTool.is_already_enhanced_content (some c3_manifest) =
       YamlMigrationValidator.is_enhanced_format c3_manifest) := by
  refine ⟨rfl, rfl, ?_⟩
  intro h
  exact absurd h (by decide)

/-- C3 (corrected): the two detectors are different functions; they do agree
whenever the manifest's metadata mapping carries one of the three marker keys
(`classification`, `discovery_metadata`, `mcp_capabilities`) — both then
report enhanced — but the orchestrator's fallback is a search for the literal
string `MCP 2025-06-18` in the rendered content while the validator's is the
3-of-5-sections test on the first tool, and the two can disagree. -/
theorem c3_detector_agreement_amended (fs mf : List (String × Yaml))
    (hm : Yaml.getD fs "metadata" (Yaml.dict []) = Yaml.dict mf)
    (hk : Yaml.hasKey mf "classification" = true ∨
          Yaml.hasKey mf "discovery_metadata" = true ∨
          Yaml.hasKey mf "mcp_capabilities" = true) :
    YamlMigrationValidator.is_enhanced_format (Yaml.dict fs) = true ∧
    YamlMigrationTool.is_already_enhanced_content (some (Yaml.dict fs)) = true := by
  constructor
  · rcases hk with h | h | h <;>
      simp [YamlMigrationValidator.is_enhanced_format, hm, h]
  · rcases hk with h | h | h
    · simp [YamlMigrationTool.is_already_enhanced_content, Yaml.pyIn, hm, h]
    · cases h1 : Yaml.hasKey mf "classification" <;>
        simp [YamlMigrationTool.is_already_enhanced_content, Yaml.pyIn, hm, h, h1]
    · cases h1 : Yaml.hasKey mf "classification" <;>
        cases h2 : Yaml.hasKey mf "discovery_metadata" <;>
        simp [YamlMigrationTool.is_already_enhanced_content, Yaml.pyIn, hm, h, h1, h2]

/-- Witness for C3: the amended theorem applied to a manifest whose metadata
carries `classification`. -/
theorem c3_witness :
    Yaml.getD [("metadata", Yaml.dict [("classification", Yaml.dict [])])] "metadata"
      (Yaml.dict []) = Yaml.dict [("classification", Yaml.dict [])] ∧
    Yaml.hasKey [("classification", Yaml.dict [])] "classification" = true ∧
    YamlMigrationValidator.is_enhanced_format
      (Yaml.dict [("metadata", Yaml.dict [("classification", Yaml.dict [])])]) = true ∧
    YamlMigrationTool.is_already_enhanced_content
      (some (Yaml.dict [("metadata", Yaml.dict [("classification", Yaml.dict [])])])) = true := by
  have hc := c3_detector_agreement_amended
    [("metadata", Yaml.dict [("classification", Yaml.dict [])])]
    [("classification", Yaml.dict [])] rfl (Or.inl rfl)
  exact ⟨rfl, rfl, hc.1, hc.2⟩

/-- C6 counterexample: migrating a schema with a `path` property writes the
injected validation hints into the legacy input schema itself (the post-call
legacy schema carries them although the original did not), refuting the
deep-copy frame condition. -/
theorem c6_counterexample :
    (YamlMigrationTool.enhance_input_schema c6_schema).map
        (fun pr => yget (yget (yget pr.2 "properties") "path") "validation") =
      some YamlMigrationTool.path_validation ∧
    yget (yget (yget c6_schema "properties") "path") "validation" = Yaml.null ∧
    ¬ (YamlMigrationTool.path_validation = Yaml.null) := by
  refine ⟨rfl, rfl, ?_⟩
  intro h
  simp [YamlMigrationTool.path_validation] at h

/-- C6 (corrected): the copy is shallow.  `additionalProperties = false` lands
only on the enhanced copy and every legacy top-level entry other than
`properties` is unchanged, but the property table — shared between the copy
and the legacy schema — is mutated in place, so the injected validation hints
appear in the legacy input schema too. -/
theorem c6_shallow_copy_amended (fs ps : List (String × Yaml))
    (h : Yaml.getOpt fs "properties" = some (Yaml.dict ps)) :
    ∃ e l : List (String × Yaml),
      YamlMigrationTool.enhance_input_schema (Yaml.dict fs) =
        some (Yaml.dict e, Yaml.dict l) ∧
      (∀ (k : String) (d : Yaml), ¬ k = "properties" →
        Yaml.getD l k d = Yaml.getD fs k d) ∧
      Yaml.getD l "properties" Yaml.null =
        Yaml.dict (ps.map YamlMigrationTool.enhance_prop) ∧
      Yaml.getD e "additionalProperties" Yaml.null = Yaml.bool false ∧
      (Yaml.hasKey fs "additionalProperties" = false →
        Yaml.hasKey l "additionalProperties" = false) ∧
      Yaml.getD e "properties" Yaml.null = Yaml.getD l "properties" Yaml.null := by
  refine ⟨Yaml.setKey (Yaml.setKey fs "properties"
            (Yaml.dict (ps.map YamlMigrationTool.enhance_prop)))
            "additionalProperties" (Yaml.bool false),
          Yaml.setKey fs "properties" (Yaml.dict (ps.map YamlMigrationTool.enhance_prop)),
          ?_, ?_, ?_, ?_, ?_, ?_⟩
  · simp [YamlMigrationTool.enhance_input_schema, Yaml.asDict, h]
  · intro k d hk
    exact Yaml.getD_setKey_ne fs "properties" k _ d hk
  · exact Yaml.getD_setKey_self fs "properties" _ Yaml.null
  · exact Yaml.getD_setKey_self _ "additionalProperties" _ Yaml.null
  · intro hf
    rw [Yaml.hasKey_setKey_ne fs "properties" "additionalProperties" _ (by decide)]
    exact hf
  · rw [Yaml.getD_setKey_ne _ "additionalProperties" "properties" _ Yaml.null (by decide)]

/-- Witness for C6: the amended theorem applied to the concrete schema of the
counterexample. -/
theorem c6_witness :
    Yaml.getOpt [("type", Yaml.str "object"),
                 ("properties", Yaml.dict [("path", Yaml.dict [("type", Yaml.str "string")])])]
        "properties" =
      some (Yaml.dict [("path", Yaml.dict [("type", Yaml.str "string")])]) ∧
    ∃ e l : List (String × Yaml),
      YamlMigrationTool.enhance_input_schema
          (Yaml.dict [("type", Yaml.str "object"),
                      ("properties", Yaml.dict [("path", Yaml.dict [("type", Yaml.str "string")])])]) =
        some (Yaml.dict e, Yaml.dict l) ∧
      (∀ (k : String) (d : Yaml), ¬ k = "properties" →
        Yaml.getD l k d = Yaml.getD [("type", Yaml.str "object"),
          ("properties", Yaml.dict [("path", Yaml.dict [("type", Yaml.str "string")])])] k d) ∧
      Yaml.getD l "properties" Yaml.null =
        Yaml.dict ([("path", Yaml.dict [("type", Yaml.str "string")])].map
          YamlMigrationTool.enhance_prop) ∧
      Yaml.getD e "additionalProperties" Yaml.null = Yaml.bool false ∧
      (Yaml.hasKey [("type", Yaml.str "object"),
          ("properties", Yaml.dict [("path", Yaml.dict [("type", Yaml.str "string")])])]
          "additionalProperties" = false →
        Yaml.hasKey l "additionalProperties" = false) ∧
      Yaml.getD e "properties" Yaml.null = Yaml.getD l "properties" Yaml.null := by
  refine ⟨rfl, ?_⟩
  exact c6_shallow_copy_amended
    [("type", Yaml.str "object"),
     ("properties", Yaml.dict [("path", Yaml.dict [("type", Yaml.str "string")])])]
    [("path", Yaml.dict [("type", Yaml.str "string")])] rfl

theorem step_skipped (s : MigrationStats) (f : FileRec)
    (h : YamlMigrationTool.file_skipped f = true) :
    YamlMigrationTool.migrate_directory_step s f =
      ⟨s.files_processed, s.files_migrated, s.files_skipped + 1, s.errors⟩ := by
  unfold YamlMigrationTool.migrate_directory_step
  rw [show YamlMigrationTool.is_already_enhanced_content f.parse = true from h]
  rfl

theorem step_failed (s : MigrationStats) (f : FileRec)
    (h : YamlMigrationTool.file_failed f = true) :
    YamlMigrationTool.migrate_directory_step s f =
      ⟨s.files_processed, s.files_migrated, s.files_skipped,
       s.errors ++ [YamlMigrationTool.migrate_error_message f]⟩ := by
  unfold YamlMigrationTool.file_failed YamlMigrationTool.file_skipped at h
  rw [Bool.and_eq_true, Bool.not_eq_true'] at h
  unfold YamlMigrationTool.migrate_directory_step
  rw [h.1]
  rw [Option.isNone_iff_eq_none] at h
  rw [h.2]
  rfl

theorem step_migrated (s : MigrationStats) (f : FileRec)
    (h : YamlMigrationTool.file_migrated_ok f = true) :
    YamlMigrationTool.migrate_directory_step s f =
      ⟨s.files_processed + 1, s.files_migrated + 1, s.files_skipped, s.errors⟩ := by
  unfold YamlMigrationTool.file_migrated_ok YamlMigrationTool.file_skipped at h
  rw [Bool.and_eq_true, Bool.not_eq_true'] at h
  unfold YamlMigrationTool.migrate_directory_step
  rw [h.1]
  obtain ⟨y, hy⟩ := Option.isSome_iff_exists.mp h.2
  rw [hy]
  rfl

theorem fold_stats_char (files : List FileRec) : ∀ s : MigrationStats,
    files.foldl YamlMigrationTool.migrate_directory_step s =
      ⟨s.files_processed + (files.filter YamlMigrationTool.file_migrated_ok).length,
       s.files_migrated + (files.filter YamlMigrationTool.file_migrated_ok).length,
       s.files_skipped + (files.filter YamlMigrationTool.file_skipped).length,
       s.errors ++ (files.filter YamlMigrationTool.file_failed).map
         YamlMigrationTool.migrate_error_message⟩ := by
  induction files with
  | nil => intro s; simp
  | cons f rest ih =>
    intro s
    rw [List.foldl_cons]
    by_cases h1 : YamlMigrationTool.file_skipped f = true
    · have hm : YamlMigrationTool.file_migrated_ok f = false := by
        unfold YamlMigrationTool.file_migrated_ok
        rw [h1]
        rfl
      have hf : YamlMigrationTool.file_failed f = false := by
        unfold YamlMigrationTool.file_failed
        rw [h1]
        rfl
      rw [step_skipped s f h1, ih]
      simp [List.filter_cons, h1, hm, hf, Nat.add_assoc, Nat.add_comm 1]
    · rw [Bool.not_eq_true] at h1
      cases ho : YamlMigrationTool.migrate_file_outcome f with
      | none =>
        have hf : YamlMigrationTool.file_failed f = true := by
          unfold YamlMigrationTool.file_failed
          rw [h1, ho]
          rfl
        have hm : YamlMigrationTool.file_migrated_ok f = false := by
          unfold YamlMigrationTool.file_migrated_ok
          rw [h1, ho]
          rfl
        rw [step_failed s f hf, ih]
        simp [List.filter_cons, h1, hm, hf, List.append_assoc]
      | some y =>
        have hm : YamlMigrationTool.file_migrated_ok f = true := by
          unfold YamlMigrationTool.file_migrated_ok
          rw [h1, ho]
          rfl
        have hf : YamlMigrationTool.file_failed f = false := by
          unfold YamlMigrationTool.file_failed
          rw [h1, ho]
          rfl
        rw [step_migrated s f hm, ih]
        simp [List.filter_cons, h1, hm, hf, Nat.add_assoc, Nat.add_comm 1]

/-- C9: batch error isolation.  A missing input root aborts the whole run
before any file is processed; with an existing root, every enumerated file is
handled independently — a file that fails contributes exactly one message to
the `errors` list and nothing else, skipped and migrated files are counted,
and no failure stops the later files (the final statistics are exactly the
per-file tallies over the whole list). -/
theorem c9_batch_error_isolation (files : List FileRec) :
    YamlMigrationTool.migrate_directory false files = none ∧
    YamlMigrationTool.migrate_directory true files =
      some ⟨(files.filter YamlMigrationTool.file_migrated_ok).length,
            (files.filter YamlMigrationTool.file_migrated_ok).length,
            (files.filter YamlMigrationTool.file_skipped).length,
            (files.filter YamlMigrationTool.file_failed).map
              YamlMigrationTool.migrate_error_message⟩ ∧
    (∀ (s : MigrationStats) (f : FileRec), YamlMigrationTool.file_failed f = true →
      YamlMigrationTool.migrate_directory_step s f =
        ⟨s.files_processed, s.files_migrated, s.files_skipped,
         s.errors ++ [YamlMigrationTool.migrate_error_message f]⟩) := by
  refine ⟨rfl, ?_, step_failed⟩
  unfold YamlMigrationTool.migrate_directory
  rw [fold_stats_char files YamlMigrationTool.init_stats]
  simp [YamlMigrationTool.init_stats]

/-- Witness for C9: the theorem applied to a run over one migratable file,
one unreadable file and one already-enhanced file. -/
theorem c9_witness :
    YamlMigrationTool.migrate_directory false [fileA, fileB, fileC] = none ∧
    YamlMigrationTool.migrate_directory true [fileA, fileB, fileC] =
      some ⟨([fileA, fileB, fileC].filter YamlMigrationTool.file_migrated_ok).length,
            ([fileA, fileB, fileC].filter YamlMigrationTool.file_migrated_ok).length,
            ([fileA, fileB, fileC].filter YamlMigrationTool.file_skipped).length,
            ([fileA, fileB, fileC].filter YamlMigrationTool.file_failed).map
              YamlMigrationTool.migrate_error_message⟩ :=
  ⟨(c9_batch_error_isolation [fileA, fileB, fileC]).1,
   (c9_batch_error_isolation [fileA, fileB, fileC]).2.1⟩

/-- C10: the implicit `MigrationStats` invariant.  A skipped file increments
only `files_skipped`; a failed file increments no counter and is recorded
solely by its message in `errors`; `files_processed` and `files_migrated` are
incremented together on success, so they are equal after every prefix of the
run. -/
theorem c10_stats_invariant :
    (∀ (s : MigrationStats) (f : FileRec), YamlMigrationTool.file_skipped f = true →
      YamlMigrationTool.migrate_directory_step s f =
        ⟨s.files_processed, s.files_migrated, s.files_skipped + 1, s.errors⟩) ∧
    (∀ (s : MigrationStats) (f : FileRec), YamlMigrationTool.file_failed f = true →
      YamlMigrationTool.migrate_directory_step s f =
        ⟨s.files_processed, s.files_migrated, s.files_skipped,
         s.errors ++ [YamlMigrationTool.migrate_error_message f]⟩ ∧
      (YamlMigrationTool.migrate_directory_step s f).files_processed = s.files_processed ∧
      (YamlMigrationTool.migrate_directory_step s f).files_migrated = s.files_migrated ∧
      (YamlMigrationTool.migrate_directory_step s f).files_skipped = s.files_skipped) ∧
    (∀ pre : List FileRec,
      (pre.foldl YamlMigrationTool.migrate_directory_step
          YamlMigrationTool.init_stats).files_processed =
      (pre.foldl YamlMigrationTool.migrate_directory_step
          YamlMigrationTool.init_stats).files_migrated) := by
  refine ⟨step_skipped, fun s f h => ⟨step_failed s f h, ?_, ?_, ?_⟩, fun pre => ?_⟩
  · rw [step_failed s f h]
  · rw [step_failed s f h]
  · rw [step_failed s f h]
  · rw [fold_stats_char pre YamlMigrationTool.init_stats]
    simp [YamlMigrationTool.init_stats]

/-- Witness for C10: the theorem applied to a concrete failing file and a
concrete prefix. -/
theorem c10_witness :
    YamlMigrationTool.file_failed fileB = true ∧
    YamlMigrationTool.migrate_directory_step YamlMigrationTool.init_stats fileB =
      ⟨0, 0, 0, ["Failed to migrate b.yaml: boom"]⟩ ∧
    ([fileA, fileB, fileC].foldl YamlMigrationTool.migrate_directory_step
        YamlMigrationTool.init_stats).files_processed =
    ([fileA, fileB, fileC].foldl YamlMigrationTool.migrate_directory_step
        YamlMigrationTool.init_stats).files_migrated := by
  refine ⟨rfl, ?_, (c10_stats_invariant.2.2 [fileA, fileB, fileC])⟩
  exact ((c10_stats_invariant.2.1 YamlMigrationTool.init_stats fileB rfl).1)
theorem errorsOf_append (a b : List ValidationResult) :
    YamlMigrationValidator.errorsOf (a ++ b) =
      YamlMigrationValidator.errorsOf a ++ YamlMigrationValidator.errorsOf b :=
  List.filter_append _ _

theorem Yaml.getD_of_hasKey_false (fs : List (String × Yaml)) (k : String) (d : Yaml)
    (h : Yaml.hasKey fs k = false) : Yaml.getD fs k d = d := by
  induction fs with
  | nil => rfl
  | cons p rest ih =>
    obtain ⟨k0, v0⟩ := p
    simp only [Yaml.hasKey, List.any_cons, Bool.or_eq_false_iff] at h
    have h2 : Yaml.hasKey rest k = false := h.2
    simp [Yaml.getD, h.1, ih h2]

theorem errorsOf_discovery (fp : String) (df : List (String × Yaml)) :
    YamlMigrationValidator.errorsOf
      (YamlMigrationValidator.validate_discovery_metadata fp df) = [] := by
  have h0 : YamlMigrationValidator.validate_discovery_metadata fp df =
      (if (!(["primary_keywords", "semantic_embeddings", "llm_enhanced",
              "workflow_enabled"].filter (fun f => !Yaml.hasKey df f)).isEmpty) = true then
        [⟨fp, ValidationLevel.WARNING,
          "Missing recommended discovery_metadata fields: " ++
            YamlMigrationValidator.joinComma
              (["primary_keywords", "semantic_embeddings", "llm_enhanced",
                "workflow_enabled"].filter (fun f => !Yaml.hasKey df f)), none⟩]
      else []) := rfl
  rw [h0]
  split <;> rfl

theorem errorsOf_mcp (fp : String) (mc : List (String × Yaml))
    (hv : Yaml.eqStr (Yaml.getD mc "version" Yaml.null) "2025-06-18" = true) :
    YamlMigrationValidator.errorsOf
      (YamlMigrationValidator.validate_mcp_capabilities fp mc) = [] := by
  have h0 : YamlMigrationValidator.validate_mcp_capabilities fp mc =
      ((if (!(Yaml.eqStr (Yaml.getD mc "version" Yaml.null) "2025-06-18")) = true then
          [⟨fp, ValidationLevel.ERROR,
            "Invalid MCP version: " ++ pyStr (Yaml.getD mc "version" Yaml.null) ++
              ". Expected: 2025-06-18", none⟩]
        else []) ++
       (if (!(["supports_cancellation", "supports_progress", "supports_sampling",
               "supports_validation", "supports_elicitation"].filter
                 (fun c => !Yaml.hasKey mc c)).isEmpty) = true then
          [⟨fp, ValidationLevel.WARNING,
            "Missing MCP capability declarations: " ++
              YamlMigrationValidator.joinComma
                (["supports_cancellation", "supports_progress", "supports_sampling",
                  "supports_validation", "supports_elicitation"].filter
                    (fun c => !Yaml.hasKey mc c)), none⟩]
        else [])) := rfl
  rw [h0, hv, errorsOf_append]
  have h1 : YamlMigrationValidator.errorsOf
      (if (!true) = true then
        [⟨fp, ValidationLevel.ERROR,
          "Invalid MCP version: " ++ pyStr (Yaml.getD mc "version" Yaml.null) ++
            ". Expected: 2025-06-18", none⟩]
      else ([] : List ValidationResult)) = [] := rfl
  rw [h1]
  split <;> rfl

theorem validate_classification_bad_level (fp : String) (cf : List (String × Yaml))
    (hsec : Yaml.getD cf "security_level" Yaml.null = Yaml.str "unsafe")
    (hcomp : (Yaml.truthy (Yaml.getD cf "complexity_level" Yaml.null) &&
      !(YamlMigrationValidator.valid_complexity_levels.any
        (fun s => Yaml.eqStr (Yaml.getD cf "complexity_level" Yaml.null) s))) = false) :
    YamlMigrationValidator.validate_classification fp cf =
      [⟨fp, ValidationLevel.ERROR,
        "Invalid security_level: unsafe. Must be one of: safe, restricted, mixed, privileged, dangerous, blocked",
        none⟩] := by
  have h0 : YamlMigrationValidator.validate_classification fp cf =
      ((if (Yaml.truthy (Yaml.getD cf "security_level" Yaml.null) &&
            !(YamlMigrationValidator.valid_security_levels.any
              (fun s => Yaml.eqStr (Yaml.getD cf "security_level" Yaml.null) s))) = true then
          [⟨fp, ValidationLevel.ERROR,
            "Invalid security_level: " ++ pyStr (Yaml.getD cf "security_level" Yaml.null) ++
              ". Must be one of: " ++
              YamlMigrationValidator.joinComma YamlMigrationValidator.valid_security_levels,
            none⟩]
        else []) ++
       (if (Yaml.truthy (Yaml.getD cf "complexity_level" Yaml.null) &&
            !(YamlMigrationValidator.valid_complexity_levels.any
              (fun s => Yaml.eqStr (Yaml.getD cf "complexity_level" Yaml.null) s))) = true then
          [⟨fp, ValidationLevel.ERROR,
            "Invalid complexity_level: " ++ pyStr (Yaml.getD cf "complexity_level" Yaml.null) ++
              ". Must be one of: " ++
              YamlMigrationValidator.joinComma YamlMigrationValidator.valid_complexity_levels,
            none⟩]
        else [])) := rfl
  rw [h0, hsec, hcomp]
  rfl

/-- C5: on an enhanced manifest that is well-formed apart from
`classification.security_level = "unsafe"` (required metadata fields present
and truthy, complexity level valid or absent, MCP version correct when the
capabilities block is a mapping, tools present and validating with no
errors), validation yields exactly one ERROR-level diagnostic, and its
message names the allowed set safe, restricted, mixed, privileged, dangerous,
blocked. -/
theorem c5_enum_enforcement (strict : Bool) (fp : String)
    (mf cf : List (String × Yaml)) (toolsY : Yaml) (trs : List ValidationResult)
    (hfields : (["name", "description", "version", "author"].filter (fun f =>
        match Yaml.getOpt mf f with
        | none => true
        | some v => !Yaml.truthy v)) = [])
    (hclass : Yaml.getD mf "classification" (Yaml.dict []) = Yaml.dict cf)
    (hsec : Yaml.getD cf "security_level" Yaml.null = Yaml.str "unsafe")
    (hcomp : (Yaml.truthy (Yaml.getD cf "complexity_level" Yaml.null) &&
      !(YamlMigrationValidator.valid_complexity_levels.any
        (fun s => Yaml.eqStr (Yaml.getD cf "complexity_level" Yaml.null) s))) = false)
    (hmcp : ∀ mc : List (String × Yaml),
      Yaml.getD mf "mcp_capabilities" (Yaml.dict []) = Yaml.dict mc →
      Yaml.eqStr (Yaml.getD mc "version" Yaml.null) "2025-06-18" = true)
    (htrue : Yaml.truthy toolsY = true)
    (htools : YamlMigrationValidator.validate_enhanced_tools_part fp toolsY = some trs)
    (hterr : YamlMigrationValidator.errorsOf trs = []) :
    ∃ rs, YamlMigrationValidator.validate_file_content strict fp
        (YamlMigrationValidator.ParseOutcome.parsed
          (Yaml.dict [("metadata", Yaml.dict mf), ("tools", toolsY)])) = some rs ∧
      YamlMigrationValidator.errorsOf rs =
        [⟨fp, ValidationLevel.ERROR,
          "Invalid security_level: unsafe. Must be one of: safe, restricted, mixed, privileged, dangerous, blocked",
          none⟩] ∧
      strContains
        "Invalid security_level: unsafe. Must be one of: safe, restricted, mixed, privileged, dangerous, blocked"
        "safe, restricted, mixed, privileged, dangerous, blocked" = true := by
  have hhk : Yaml.hasKey mf "classification" = true := by
    by_cases hb : Yaml.hasKey mf "classification" = true
    · exact hb
    · rw [Bool.not_eq_true] at hb
      rw [Yaml.getD_of_hasKey_false mf "classification" (Yaml.dict []) hb] at hclass
      have hcf : cf = [] := by
        injection hclass with h'
        exact h'.symm
      rw [hcf] at hsec
      exact absurd hsec (by intro h'; exact Yaml.noConfusion h')
  have hmd : Yaml.getD [("metadata", Yaml.dict mf), ("tools", toolsY)] "metadata"
      (Yaml.dict []) = Yaml.dict mf := rfl
  have hdet : YamlMigrationValidator.is_enhanced_format
      (Yaml.dict [("metadata", Yaml.dict mf), ("tools", toolsY)]) = true := by
    simp [YamlMigrationValidator.is_enhanced_format, hmd, hhk]
  -- the metadata half produces exactly the one security-level error
  have eB : YamlMigrationValidator.errorsOf
      (YamlMigrationValidator.validate_classification fp cf) =
      [⟨fp, ValidationLevel.ERROR,
        "Invalid security_level: unsafe. Must be one of: safe, restricted, mixed, privileged, dangerous, blocked",
        none⟩] := by
    rw [validate_classification_bad_level fp cf hsec hcomp]
    rfl
  have hmeta0 : YamlMigrationValidator.validate_enhanced_metadata fp (Yaml.dict mf) =
      ((if (!(["name", "description", "version", "author"].filter (fun f =>
            match Yaml.getOpt mf f with
            | none => true
            | some v => !Yaml.truthy v)).isEmpty) = true then
          [⟨fp, ValidationLevel.ERROR,
            "Missing required metadata fields: " ++
              YamlMigrationValidator.joinComma
                (["name", "description", "version", "author"].filter (fun f =>
                  match Yaml.getOpt mf f with
                  | none => true
                  | some v => !Yaml.truthy v)), none⟩]
        else []) ++
       (match Yaml.getD mf "classification" (Yaml.dict []) with
        | Yaml.dict cf => YamlMigrationValidator.validate_classification fp cf
        | _ => []) ++
       (match Yaml.getD mf "discovery_metadata" (Yaml.dict []) with
        | Yaml.dict df => YamlMigrationValidator.validate_discovery_metadata fp df
        | _ => []) ++
       (match Yaml.getD mf "mcp_capabilities" (Yaml.dict []) with
        | Yaml.dict cf => YamlMigrationValidator.validate_mcp_capabilities fp cf
        | _ => [])) := rfl
  have hmeta : YamlMigrationValidator.errorsOf
      (YamlMigrationValidator.validate_enhanced_metadata fp (Yaml.dict mf)) =
      [⟨fp, ValidationLevel.ERROR,
        "Invalid security_level: unsafe. Must be one of: safe, restricted, mixed, privileged, dangerous, blocked",
        none⟩] := by
    rw [hmeta0, errorsOf_append, errorsOf_append, errorsOf_append]
    have e1 : YamlMigrationValidator.errorsOf
        (if (!(["name", "description", "version", "author"].filter (fun f =>
              match Yaml.getOpt mf f with
              | none => true
              | some v => !Yaml.truthy v)).isEmpty) = true then
            [⟨fp, ValidationLevel.ERROR,
              "Missing required metadata fields: " ++
                YamlMigrationValidator.joinComma
                  (["name", "description", "version", "author"].filter (fun f =>
                    match Yaml.getOpt mf f with
                    | none => true
                    | some v => !Yaml.truthy v)), none⟩]
          else []) = [] := by
      rw [hfields]
      rfl
    have e2 : YamlMigrationValidator.errorsOf
        (match Yaml.getD mf "classification" (Yaml.dict []) with
         | Yaml.dict cf => YamlMigrationValidator.validate_classification fp cf
         | _ => []) =
        [⟨fp, ValidationLevel.ERROR,
          "Invalid security_level: unsafe. Must be one of: safe, restricted, mixed, privileged, dangerous, blocked",
          none⟩] := by
      rw [hclass]
      exact eB
    have e3 : YamlMigrationValidator.errorsOf
        (match Yaml.getD mf "discovery_metadata" (Yaml.dict []) with
         | Yaml.dict df => YamlMigrationValidator.validate_discovery_metadata fp df
         | _ => []) = [] := by
      cases hv : Yaml.getD mf "discovery_metadata" (Yaml.dict [])
      case dict df => exact errorsOf_discovery fp df
      all_goals rfl
    have e4 : YamlMigrationValidator.errorsOf
        (match Yaml.getD mf "mcp_capabilities" (Yaml.dict []) with
         | Yaml.dict cf => YamlMigrationValidator.validate_mcp_capabilities fp cf
         | _ => []) = [] := by
      cases hv : Yaml.getD mf "mcp_capabilities" (Yaml.dict [])
      case dict mc => exact errorsOf_mcp fp mc (hmcp mc hv)
      all_goals rfl
    rw [e1, e2, e3, e4]
    rfl
  have hef : YamlMigrationValidator.validate_enhanced_format fp
      (Yaml.dict [("metadata", Yaml.dict mf), ("tools", toolsY)]) =
      some (YamlMigrationValidator.validate_enhanced_metadata fp (Yaml.dict mf) ++ trs) := by
    have h0 : YamlMigrationValidator.validate_enhanced_format fp
        (Yaml.dict [("metadata", Yaml.dict mf), ("tools", toolsY)]) =
        (if (!Yaml.truthy toolsY) = true then
          some (YamlMigrationValidator.validate_enhanced_metadata fp (Yaml.dict mf) ++
            [⟨fp, ValidationLevel.ERROR, "Enhanced format must contain at least one tool", none⟩])
        else
          (YamlMigrationValidator.validate_enhanced_tools_part fp toolsY).bind
            (fun tl => some (YamlMigrationValidator.validate_enhanced_metadata fp (Yaml.dict mf) ++ tl))) := rfl
    rw [h0, htrue, htools]
    rfl
  have hvf0 : YamlMigrationValidator.validate_file_content strict fp
      (YamlMigrationValidator.ParseOutcome.parsed
        (Yaml.dict [("metadata", Yaml.dict mf), ("tools", toolsY)])) =
      ((if YamlMigrationValidator.is_enhanced_format
            (Yaml.dict [("metadata", Yaml.dict mf), ("tools", toolsY)]) = true then
          YamlMigrationValidator.validate_enhanced_format fp
            (Yaml.dict [("metadata", Yaml.dict mf), ("tools", toolsY)])
        else
          YamlMigrationValidator.validate_legacy_format fp
            (Yaml.dict [("metadata", Yaml.dict mf), ("tools", toolsY)])).map
        (fun rs => [⟨fp, ValidationLevel.INFO,
          "Detected format: " ++
            (if YamlMigrationValidator.is_enhanced_format
                (Yaml.dict [("metadata", Yaml.dict mf), ("tools", toolsY)]) = true then
              "Enhanced MCP 2025-06-18"
            else "Legacy"), none⟩] ++ rs)) := rfl
  refine ⟨[⟨fp, ValidationLevel.INFO, "Detected format: Enhanced MCP 2025-06-18", none⟩] ++
          (YamlMigrationValidator.validate_enhanced_metadata fp (Yaml.dict mf) ++ trs),
          ?_, ?_, rfl⟩
  · rw [hvf0, hdet, hef]
    rfl
  · rw [errorsOf_append, errorsOf_append, hmeta, hterr]
    rfl

theorem append_left_ne_empty (a b : String) (h : ¬ a.data = []) : ((a ++ b) == "") = false := by
  cases a with
  | mk d =>
    cases d with
    | nil => exact absurd rfl h
    | cons c cs => cases b with | mk e => rfl

theorem append_right_ne_empty (a b : String) (h : ¬ b.data = []) : ((a ++ b) == "") = false := by
  cases a with
  | mk d =>
    cases b with
    | mk e =>
      cases d with
      | nil =>
        cases e with
        | nil => exact absurd rfl h
        | cons c cs => rfl
      | cons c cs => rfl

theorem truthy_append_left (a b : String) (h : ¬ a.data = []) :
    Yaml.truthy (Yaml.str (a ++ b)) = true := by
  show (!((a ++ b) == "")) = true
  rw [append_left_ne_empty a b h]
  rfl

theorem truthy_append_right (a b : String) (h : ¬ b.data = []) :
    Yaml.truthy (Yaml.str (a ++ b)) = true := by
  show (!((a ++ b) == "")) = true
  rw [append_right_ne_empty a b h]
  rfl

theorem Yaml.getD_eq_of_getOpt_some (fs : List (String × Yaml)) (k : String) (v d : Yaml)
    (h : Yaml.getOpt fs k = some v) : Yaml.getD fs k d = v := by
  induction fs with
  | nil => exact absurd h (by intro hh; exact Option.noConfusion hh)
  | cons p rest ih =>
    obtain ⟨k0, v0⟩ := p
    by_cases h1 : (k0 == k) = true
    · simp only [Yaml.getOpt, h1, if_true] at h
      simp only [Yaml.getD, h1, if_true]
      injection h
    · simp only [Yaml.getOpt, h1, if_false, Bool.false_eq_true] at h
      simp only [Yaml.getD, h1, if_false, Bool.false_eq_true]
      exact ih h

theorem Yaml.getD_eq_of_getOpt_none (fs : List (String × Yaml)) (k : String) (d : Yaml)
    (h : Yaml.getOpt fs k = none) : Yaml.getD fs k d = d := by
  induction fs with
  | nil => rfl
  | cons p rest ih =>
    obtain ⟨k0, v0⟩ := p
    by_cases h1 : (k0 == k) = true
    · simp only [Yaml.getOpt, h1, if_true] at h
      exact Option.noConfusion h
    · simp only [Yaml.getOpt, h1, if_false, Bool.false_eq_true] at h
      simp only [Yaml.getD, h1, if_false, Bool.false_eq_true]
      exact ih h

theorem Yaml.setKey_isEmpty_false (l : List (String × Yaml)) (k : String) (v : Yaml) :
    (Yaml.setKey l k v).isEmpty = false := by
  cases l with
  | nil => rfl
  | cons p rest =>
    obtain ⟨k0, v0⟩ := p
    show (if (k0 == k) = true then (k0, v) :: rest else (k0, v0) :: Yaml.setKey rest k v).isEmpty = false
    split <;> rfl

theorem mapMo_isSome {α β : Type} (f : α → Option β) :
    ∀ l : List α, (∀ a ∈ l, (f a).isSome = true) → (mapMo f l).isSome = true := by
  intro l
  induction l with
  | nil => intro _; rfl
  | cons a as ih =>
    intro h
    obtain ⟨b, hb⟩ := Option.isSome_iff_exists.mp (h a (by simp))
    obtain ⟨bs, hbs⟩ := Option.isSome_iff_exists.mp (ih (fun x hx => h x (by simp [hx])))
    simp [mapMo, hb, hbs]

theorem sec_level_truthy (stem : String) :
    Yaml.truthy (Yaml.str (YamlMigrationTool.security_level_of stem)) = true := by
  rw [security_level_of_ite]
  cases h1 : YamlMigrationTool.privileged_trigger stem <;>
    cases h2 : YamlMigrationTool.restricted_trigger stem <;>
    cases h3 : YamlMigrationTool.dangerous_trigger stem <;> rfl

theorem sec_level_valid (stem : String) :
    (YamlMigrationValidator.valid_security_levels.any
      (fun s => Yaml.eqStr (Yaml.str (YamlMigrationTool.security_level_of stem)) s)) = true := by
  rw [security_level_of_ite]
  cases h1 : YamlMigrationTool.privileged_trigger stem <;>
    cases h2 : YamlMigrationTool.restricted_trigger stem <;>
    cases h3 : YamlMigrationTool.dangerous_trigger stem <;> rfl

theorem comp_level_truthy (n : Nat) :
    Yaml.truthy (Yaml.str (YamlMigrationTool.complexity_level_of n)) = true := by
  unfold YamlMigrationTool.complexity_level_of
  split
  · rfl
  · split
    · rfl
    · split <;> rfl

theorem comp_level_valid (n : Nat) :
    (YamlMigrationValidator.valid_complexity_levels.any
      (fun s => Yaml.eqStr (Yaml.str (YamlMigrationTool.complexity_level_of n)) s)) = true := by
  unfold YamlMigrationTool.complexity_level_of
  split
  · rfl
  · split
    · rfl
    · split <;> rfl

theorem lookupStrD_mem (m : List (String × String)) (k d : String) :
    YamlMigrationTool.lookupStrD m k d = d ∨
    YamlMigrationTool.lookupStrD m k d ∈ m.map Prod.snd := by
  induction m with
  | nil => exact Or.inl rfl
  | cons p rest ih =>
    obtain ⟨k0, v0⟩ := p
    by_cases h : (k0 == k) = true
    · right
      simp [YamlMigrationTool.lookupStrD, h]
    · rcases ih with h2 | h2
      · left
        simp [YamlMigrationTool.lookupStrD, h, h2]
      · right
        simp only [YamlMigrationTool.lookupStrD, h, if_false, Bool.false_eq_true, List.map_cons,
          List.mem_cons]
        exact Or.inr h2

theorem secClass_cases (nm : String) :
    YamlMigrationTool.lookupStrD YamlMigrationTool.tool_security_mapping nm
      (YamlMigrationTool.lookupStrD YamlMigrationTool.tool_security_mapping "default" "restricted") =
        "safe" ∨
    YamlMigrationTool.lookupStrD YamlMigrationTool.tool_security_mapping nm
      (YamlMigrationTool.lookupStrD YamlMigrationTool.tool_security_mapping "default" "restricted") =
        "restricted" ∨
    YamlMigrationTool.lookupStrD YamlMigrationTool.tool_security_mapping nm
      (YamlMigrationTool.lookupStrD YamlMigrationTool.tool_security_mapping "default" "restricted") =
        "privileged" ∨
    YamlMigrationTool.lookupStrD YamlMigrationTool.tool_security_mapping nm
      (YamlMigrationTool.lookupStrD YamlMigrationTool.tool_security_mapping "default" "restricted") =
        "dangerous" := by
  have hd : YamlMigrationTool.lookupStrD YamlMigrationTool.tool_security_mapping
      "default" "restricted" = "restricted" := rfl
  rcases lookupStrD_mem YamlMigrationTool.tool_security_mapping nm
      (YamlMigrationTool.lookupStrD YamlMigrationTool.tool_security_mapping
        "default" "restricted") with h | h
  · rw [h, hd]
    simp
  · rw [show YamlMigrationTool.tool_security_mapping.map Prod.snd =
        ["restricted", "privileged", "dangerous", "safe", "dangerous", "safe", "restricted",
         "restricted", "safe", "privileged", "privileged", "dangerous", "restricted"] from rfl] at h
    simp only [List.mem_cons, List.not_mem_nil, or_false] at h
    rcases h with h | h | h | h | h | h | h | h | h | h | h | h | h <;> simp [h]

theorem param_intel_isSome (p : String × Yaml) (h : ∃ cfg, p.2 = Yaml.dict cfg) :
    (YamlMigrationTool.param_intel p).isSome = true := by
  obtain ⟨cfg, hcf⟩ := h
  simp only [YamlMigrationTool.param_intel, hcf, Yaml.asDict, Option.bind_eq_bind,
    Option.some_bind]
  rfl

theorem enhance_prop_dict (p : String × Yaml) (h : ∃ cfg, p.2 = Yaml.dict cfg) :
    ∃ cfg2, (YamlMigrationTool.enhance_prop p).2 = Yaml.dict cfg2 := by
  rcases h with ⟨cfg, hcf⟩
  unfold YamlMigrationTool.enhance_prop
  rw [hcf]
  show ∃ cfg2,
    (if strContains (strLower p.1) "path" = true then
      (p.1, Yaml.dict (Yaml.setKey cfg "validation" YamlMigrationTool.path_validation))
    else if strContains (strLower p.1) "content" = true then
      (p.1, Yaml.dict (Yaml.setKey cfg "validation" YamlMigrationTool.content_validation))
    else p).2 = Yaml.dict cfg2
  by_cases h1 : strContains (strLower p.1) "path" = true
  · rw [if_pos h1]
    exact ⟨_, rfl⟩
  · rw [if_neg h1]
    by_cases h2 : strContains (strLower p.1) "content" = true
    · rw [if_pos h2]
      exact ⟨_, rfl⟩
    · rw [if_neg h2]
      exact ⟨cfg, hcf⟩

theorem wf_props_elems (ps : List (String × Yaml)) (h : wf_props (Yaml.dict ps) = true) :
    ∀ p ∈ ps, ∃ cfg, p.2 = Yaml.dict cfg := by
  intro p hp
  have h2 := List.all_eq_true.mp h p hp
  cases hv : p.2
  case dict cfg => exact ⟨cfg, rfl⟩
  all_goals (rw [hv] at h2; simp at h2)

theorem enhance_schema_ok (sfs : List (String × Yaml))
    (h : wf_input_schema (Yaml.dict sfs) = true) :
    ∃ eFs lFs piEs : List (String × Yaml),
      YamlMigrationTool.enhance_input_schema (Yaml.dict sfs) =
        some (Yaml.dict eFs, Yaml.dict lFs) ∧
      eFs.isEmpty = false ∧
      YamlMigrationTool.create_parameter_intelligence (Yaml.dict lFs) =
        some (Yaml.dict piEs) := by
  have h0 : (match Yaml.getOpt sfs "properties" with
             | none => true
             | some p => wf_props p) = true := h
  cases hp : Yaml.getOpt sfs "properties" with
  | none =>
    refine ⟨Yaml.setKey sfs "additionalProperties" (Yaml.bool false), sfs, [],
            ?_, Yaml.setKey_isEmpty_false _ _ _, ?_⟩
    · simp only [YamlMigrationTool.enhance_input_schema, Yaml.asDict, Option.bind_eq_bind,
        Option.some_bind, hp]
      rfl
    · have hg : Yaml.getD sfs "properties" (Yaml.dict []) = Yaml.dict [] :=
        Yaml.getD_eq_of_getOpt_none _ _ _ hp
      simp only [YamlMigrationTool.create_parameter_intelligence, Yaml.asDict,
        Option.bind_eq_bind, Option.some_bind, hg]
      rfl
  | some p =>
    rw [hp] at h0
    have h' : wf_props p = true := h0
    cases p
    case dict ps =>
      have hall : ∀ q ∈ ps.map YamlMigrationTool.enhance_prop,
          (YamlMigrationTool.param_intel q).isSome = true := by
        intro q hq
        obtain ⟨p0, hp0, hq0⟩ := List.mem_map.mp hq
        rw [← hq0]
        exact param_intel_isSome _ (enhance_prop_dict p0 (wf_props_elems ps h' p0 hp0))
      obtain ⟨piEs, hpi⟩ := Option.isSome_iff_exists.mp
        (mapMo_isSome YamlMigrationTool.param_intel (ps.map YamlMigrationTool.enhance_prop) hall)
      refine ⟨Yaml.setKey (Yaml.setKey sfs "properties"
                (Yaml.dict (ps.map YamlMigrationTool.enhance_prop)))
              "additionalProperties" (Yaml.bool false),
              Yaml.setKey sfs "properties" (Yaml.dict (ps.map YamlMigrationTool.enhance_prop)),
              piEs, ?_, Yaml.setKey_isEmpty_false _ _ _, ?_⟩
      · simp only [YamlMigrationTool.enhance_input_schema, Yaml.asDict, Option.bind_eq_bind,
        Option.some_bind, hp]
        rfl
      · have hg : Yaml.getD
            (Yaml.setKey sfs "properties" (Yaml.dict (ps.map YamlMigrationTool.enhance_prop)))
            "properties" (Yaml.dict []) =
            Yaml.dict (ps.map YamlMigrationTool.enhance_prop) := Yaml.getD_setKey_self _ _ _ _
        simp only [YamlMigrationTool.create_parameter_intelligence, Yaml.asDict,
          Option.bind_eq_bind, Option.some_bind, hg, hpi]
        rfl
    all_goals simp [wf_props] at h'

theorem enhance_routing_ok (rf : List (String × Yaml)) (h : wf_routing (Yaml.dict rf) = true) :
    ∃ tv rFs, YamlMigrationTool.enhance_routing (Yaml.dict rf) =
      some (Yaml.dict (("type", Yaml.str ("enhanced_" ++ tv)) :: rFs)) := by
  have h0 : (Yaml.hasKey rf "type" &&
      (match Yaml.getOpt rf "config" with
       | none => true
       | some c => (Yaml.asDict c).isSome)) = true := h
  rw [Bool.and_eq_true] at h0
  have hcf : ∃ cf, Yaml.getD rf "config" (Yaml.dict []) = Yaml.dict cf := by
    cases hc : Yaml.getOpt rf "config" with
    | none => exact ⟨[], Yaml.getD_eq_of_getOpt_none _ _ _ hc⟩
    | some c =>
      have h2 := h0.2
      rw [hc] at h2
      have h3 : (Yaml.asDict c).isSome = true := h2
      obtain ⟨cf, hcf⟩ := Option.isSome_iff_exists.mp h3
      cases c
      case dict cfs => exact ⟨cfs, Yaml.getD_eq_of_getOpt_some _ _ _ _ hc⟩
      all_goals exact Option.noConfusion hcf
  obtain ⟨cf, hgc⟩ := hcf
  by_cases hsub : (Yaml.eqStr (Yaml.getD rf "type" (Yaml.str "subprocess")) "subprocess") = true
  · refine ⟨pyStr (Yaml.getD rf "type" (Yaml.str "subprocess")),
      [("primary", Yaml.dict [
        ("command", Yaml.getD cf "command" (Yaml.str "echo")),
        ("args", Yaml.getD cf "args" (Yaml.list [])),
        ("timeout_seconds", Yaml.getD cf "timeout" (Yaml.int 30))]),
       ("fallback", Yaml.dict [
        ("command", Yaml.str "echo"),
        ("args", Yaml.list [Yaml.str "\"Operation completed with fallback\""]),
        ("timeout_seconds", Yaml.int 10)])], ?_⟩
    simp only [YamlMigrationTool.enhance_routing, Yaml.asDict, Option.bind_eq_bind,
      Option.some_bind, hgc, hsub]
    rfl
  · rw [Bool.not_eq_true] at hsub
    refine ⟨pyStr (Yaml.getD rf "type" (Yaml.str "subprocess")),
      [("primary", Yaml.dict [
        ("command", Yaml.getD cf "command" (Yaml.str "echo")),
        ("args", Yaml.getD cf "args" (Yaml.list [])),
        ("timeout_seconds", Yaml.getD cf "timeout" (Yaml.int 30))])], ?_⟩
    simp only [YamlMigrationTool.enhance_routing, Yaml.asDict, Option.bind_eq_bind,
      Option.some_bind, hgc, hsub]
    rfl

theorem csc_validates (c : String) (hc : (c == "") = false) :
    ∃ sb, Yaml.asDict (YamlMigrationTool.create_security_config c) = some sb ∧
      Yaml.truthy (Yaml.getD sb "classification" Yaml.null) = true := by
  refine ⟨_, rfl, ?_⟩
  repeat' split
  all_goals (show (!(c == "")) = true; rw [hc]; rfl)

theorem core_validates (fp n : String) (dY : Yaml) (eFs : List (String × Yaml))
    (hE : eFs.isEmpty = false) :
    YamlMigrationValidator.validate_tool_core fp n
      (Yaml.dict [("description",
         Yaml.str ("AI-enhanced " ++ pyStr dY ++ " with MCP 2025-06-18 compliance")),
        ("input_schema", Yaml.dict eFs)]) = some [] := by
  have h1 : Yaml.truthy
      (Yaml.str ("AI-enhanced " ++ pyStr dY ++ " with MCP 2025-06-18 compliance")) = true :=
    truthy_append_right _ _ (by decide)
  have h0 : YamlMigrationValidator.validate_tool_core fp n
      (Yaml.dict [("description",
         Yaml.str ("AI-enhanced " ++ pyStr dY ++ " with MCP 2025-06-18 compliance")),
        ("input_schema", Yaml.dict eFs)]) =
      some ((if (!Yaml.truthy (Yaml.str ("AI-enhanced " ++ pyStr dY ++
               " with MCP 2025-06-18 compliance"))) = true then
          [⟨fp, ValidationLevel.ERROR,
            "Tool \x27" ++ n ++ "\x27: Core section missing description", none⟩]
        else []) ++
       (if (!Yaml.truthy (Yaml.dict eFs) || false) = true then
          [⟨fp, ValidationLevel.ERROR,
            "Tool \x27" ++ n ++ "\x27: Core section missing valid input_schema", none⟩]
        else [])) := rfl
  have h2 : (!Yaml.truthy (Yaml.dict eFs) || false) = false := by
    show (!(!eFs.isEmpty) || false) = false
    rw [hE]
    rfl
  rw [h0, h1, h2]
  rfl

theorem exec_validates (fp n tv : String) (rFs : List (String × Yaml))
    (C : String) (hc : (C == "") = false) (perfV : Yaml) :
    YamlMigrationValidator.validate_tool_execution fp n
      (Yaml.dict [("routing", Yaml.dict (("type", Yaml.str ("enhanced_" ++ tv)) :: rFs)),
                  ("security", YamlMigrationTool.create_security_config C),
                  ("performance", perfV)]) = some [] := by
  obtain ⟨sb, hsb, htr⟩ := csc_validates C hc
  have h1 : Yaml.truthy (Yaml.str ("enhanced_" ++ tv)) = true :=
    truthy_append_left _ _ (by decide)
  have h0 : YamlMigrationValidator.validate_tool_execution fp n
      (Yaml.dict [("routing", Yaml.dict (("type", Yaml.str ("enhanced_" ++ tv)) :: rFs)),
                  ("security", YamlMigrationTool.create_security_config C),
                  ("performance", perfV)]) =
      (Yaml.asDict (YamlMigrationTool.create_security_config C)).bind (fun security =>
        some ((if (!Yaml.truthy (Yaml.str ("enhanced_" ++ tv))) = true then
            [⟨fp, ValidationLevel.ERROR,
              "Tool \x27" ++ n ++ "\x27: Execution section missing routing type", none⟩]
          else []) ++
         (if (!Yaml.truthy (Yaml.getD security "classification" Yaml.null)) = true then
            [⟨fp, ValidationLevel.WARNING,
              "Tool \x27" ++ n ++ "\x27: Execution section missing security classification",
              none⟩]
          else []))) := rfl
  rw [h0, hsb, Option.some_bind, h1, htr]
  rfl

theorem discovery_validates (fp n nm : String) (dY piV : Yaml) :
    YamlMigrationValidator.validate_tool_discovery fp n
      (Yaml.dict [("ai_enhanced", YamlMigrationTool.create_ai_discovery nm dY),
                  ("parameter_intelligence", piV)]) = some [] := by
  have h1 : Yaml.truthy (Yaml.str ("AI-enhanced " ++ pyStr dY ++
      " with intelligent processing and security validation")) = true :=
    truthy_append_right _ _ (by decide)
  have h0 : YamlMigrationValidator.validate_tool_discovery fp n
      (Yaml.dict [("ai_enhanced", YamlMigrationTool.create_ai_discovery nm dY),
                  ("parameter_intelligence", piV)]) =
      some (if (!Yaml.truthy (Yaml.str ("AI-enhanced " ++ pyStr dY ++
              " with intelligent processing and security validation"))) = true then
          [⟨fp, ValidationLevel.WARNING,
            "Tool \x27" ++ n ++ "\x27: Discovery section missing AI-enhanced description",
            none⟩]
        else []) := rfl
  rw [h0, h1]
  rfl

theorem monitoring_validates (fp n nm : String) :
    YamlMigrationValidator.validate_tool_monitoring fp n
      (YamlMigrationTool.create_monitoring_config nm) = some [] := by
  by_cases h : YamlMigrationTool.is_complex_tool nm = true
  · simp only [YamlMigrationTool.create_monitoring_config, h]
    rfl
  · rw [Bool.not_eq_true] at h
    simp only [YamlMigrationTool.create_monitoring_config, h]
    rfl

theorem access_validates (fp n : String) (hidden permsV ugV apprV : Yaml) :
    YamlMigrationValidator.validate_tool_access fp n
      (Yaml.dict [("hidden", hidden), ("enabled", Yaml.bool true),
                  ("requires_permissions", permsV), ("user_groups", ugV),
                  ("approval_required", apprV)]) = some [] := rfl

theorem validate_migrated_tool (fp : String) (i : Nat) (nm tv : String) (dY hidden : Yaml)
    (eFs : List (String × Yaml)) (hE : eFs.isEmpty = false)
    (rFs : List (String × Yaml))
    (C : String) (hc : (C == "") = false)
    (perfV piV permsV ugV apprV : Yaml) :
    YamlMigrationValidator.validate_enhanced_tool fp (Yaml.dict [
      ("name", Yaml.str ("enhanced_" ++ nm)),
      ("core", Yaml.dict [
        ("description",
          Yaml.str ("AI-enhanced " ++ pyStr dY ++ " with MCP 2025-06-18 compliance")),
        ("input_schema", Yaml.dict eFs)]),
      ("execution", Yaml.dict [
        ("routing", Yaml.dict (("type", Yaml.str ("enhanced_" ++ tv)) :: rFs)),
        ("security", YamlMigrationTool.create_security_config C),
        ("performance", perfV)]),
      ("discovery", Yaml.dict [
        ("ai_enhanced", YamlMigrationTool.create_ai_discovery nm dY),
        ("parameter_intelligence", piV)]),
      ("monitoring", YamlMigrationTool.create_monitoring_config nm),
      ("access", Yaml.dict [
        ("hidden", hidden), ("enabled", Yaml.bool true),
        ("requires_permissions", permsV), ("user_groups", ugV),
        ("approval_required", apprV)])]) i = some [] := by
  have h0 : YamlMigrationValidator.validate_enhanced_tool fp (Yaml.dict [
      ("name", Yaml.str ("enhanced_" ++ nm)),
      ("core", Yaml.dict [
        ("description",
          Yaml.str ("AI-enhanced " ++ pyStr dY ++ " with MCP 2025-06-18 compliance")),
        ("input_schema", Yaml.dict eFs)]),
      ("execution", Yaml.dict [
        ("routing", Yaml.dict (("type", Yaml.str ("enhanced_" ++ tv)) :: rFs)),
        ("security", YamlMigrationTool.create_security_config C),
        ("performance", perfV)]),
      ("discovery", Yaml.dict [
        ("ai_enhanced", YamlMigrationTool.create_ai_discovery nm dY),
        ("parameter_intelligence", piV)]),
      ("monitoring", YamlMigrationTool.create_monitoring_config nm),
      ("access", Yaml.dict [
        ("hidden", hidden), ("enabled", Yaml.bool true),
        ("requires_permissions", permsV), ("user_groups", ugV),
        ("approval_required", apprV)])]) i =
    (YamlMigrationValidator.validate_tool_core fp ("enhanced_" ++ nm) (Yaml.dict [
        ("description",
          Yaml.str ("AI-enhanced " ++ pyStr dY ++ " with MCP 2025-06-18 compliance")),
        ("input_schema", Yaml.dict eFs)])).bind (fun r1 =>
      (YamlMigrationValidator.validate_tool_execution fp ("enhanced_" ++ nm) (Yaml.dict [
        ("routing", Yaml.dict (("type", Yaml.str ("enhanced_" ++ tv)) :: rFs)),
        ("security", YamlMigrationTool.create_security_config C),
        ("performance", perfV)])).bind (fun r2 =>
      (YamlMigrationValidator.validate_tool_discovery fp ("enhanced_" ++ nm) (Yaml.dict [
        ("ai_enhanced", YamlMigrationTool.create_ai_discovery nm dY),
        ("parameter_intelligence", piV)])).bind (fun r3 =>
      (YamlMigrationValidator.validate_tool_monitoring fp ("enhanced_" ++ nm)
        (YamlMigrationTool.create_monitoring_config nm)).bind (fun r4 =>
      (YamlMigrationValidator.validate_tool_access fp ("enhanced_" ++ nm) (Yaml.dict [
        ("hidden", hidden), ("enabled", Yaml.bool true),
        ("requires_permissions", permsV), ("user_groups", ugV),
        ("approval_required", apprV)])).bind (fun r5 =>
      some (r1 ++ r2 ++ r3 ++ r4 ++ r5)))))) := rfl
  rw [h0, core_validates fp ("enhanced_" ++ nm) dY eFs hE, Option.some_bind,
      exec_validates fp ("enhanced_" ++ nm) tv rFs C hc perfV, Option.some_bind,
      discovery_validates fp ("enhanced_" ++ nm) nm dY piV, Option.some_bind,
      monitoring_validates fp ("enhanced_" ++ nm) nm, Option.some_bind,
      access_validates fp ("enhanced_" ++ nm) hidden permsV ugV apprV, Option.some_bind]
  rfl

theorem migrate_tool_ok (t : Yaml) (h : wf_tool t = true) :
    ∃ et, YamlMigrationTool.migrate_tool_to_enhanced t = some et ∧
      ∀ fp i, YamlMigrationValidator.validate_enhanced_tool fp et i = some [] := by
  cases t
  case dict tf =>
    have h0 : ((((match Yaml.getOpt tf "name" with
                  | some (Yaml.str _) => true
                  | _ => false) &&
                Yaml.hasKey tf "description") &&
               (match Yaml.getOpt tf "inputSchema" with
                | some s => wf_input_schema s
                | none => false)) &&
              (match Yaml.getOpt tf "routing" with
               | some r => wf_routing r
               | none => false)) = true := h
    rw [Bool.and_eq_true, Bool.and_eq_true, Bool.and_eq_true] at h0
    obtain ⟨⟨⟨ha, hb⟩, hcs⟩, hd⟩ := h0
    -- the tool name is a string
    obtain ⟨nm, hn⟩ : ∃ nm, Yaml.getOpt tf "name" = some (Yaml.str nm) := by
      cases hv : Yaml.getOpt tf "name" with
      | none => rw [hv] at ha; simp at ha
      | some v =>
        cases v
        case str s => exact ⟨s, rfl⟩
        all_goals (rw [hv] at ha; simp at ha)
    -- the input schema is a well-formed mapping
    obtain ⟨sfs, hs, hsw⟩ : ∃ sfs, Yaml.getOpt tf "inputSchema" = some (Yaml.dict sfs) ∧
        wf_input_schema (Yaml.dict sfs) = true := by
      cases hv : Yaml.getOpt tf "inputSchema" with
      | none => rw [hv] at hcs; simp at hcs
      | some v =>
        rw [hv] at hcs
        have hcs' : wf_input_schema v = true := hcs
        cases v
        case dict sfs => exact ⟨sfs, rfl, hcs'⟩
        all_goals (simp [wf_input_schema] at hcs')
    -- the routing block is a well-formed mapping
    obtain ⟨rf, hr, hrw⟩ : ∃ rf, Yaml.getOpt tf "routing" = some (Yaml.dict rf) ∧
        wf_routing (Yaml.dict rf) = true := by
      cases hv : Yaml.getOpt tf "routing" with
      | none => rw [hv] at hd; simp at hd
      | some v =>
        rw [hv] at hd
        have hd' : wf_routing v = true := hd
        cases v
        case dict rf => exact ⟨rf, rfl, hd'⟩
        all_goals (simp [wf_routing] at hd')
    have hgn : Yaml.getD tf "name" (Yaml.str "unknown_tool") = Yaml.str nm :=
      Yaml.getD_eq_of_getOpt_some _ _ _ _ hn
    have hgs : Yaml.getD tf "inputSchema" (Yaml.dict []) = Yaml.dict sfs :=
      Yaml.getD_eq_of_getOpt_some _ _ _ _ hs
    have hgr : Yaml.getD tf "routing" (Yaml.dict []) = Yaml.dict rf :=
      Yaml.getD_eq_of_getOpt_some _ _ _ _ hr
    obtain ⟨eFs, lFs, piEs, hen, hEne, hpi⟩ := enhance_schema_ok sfs hsw
    obtain ⟨tv, rFs, hrt⟩ := enhance_routing_ok rf hrw
    have hCne : ((YamlMigrationTool.lookupStrD YamlMigrationTool.tool_security_mapping nm
        (YamlMigrationTool.lookupStrD YamlMigrationTool.tool_security_mapping
          "default" "restricted")) == "") = false := by
      rcases secClass_cases nm with h1 | h1 | h1 | h1 <;> rw [h1] <;> rfl
    obtain ⟨C, hCdef, hCne2⟩ : ∃ C,
        YamlMigrationTool.lookupStrD YamlMigrationTool.tool_security_mapping nm
          (YamlMigrationTool.lookupStrD YamlMigrationTool.tool_security_mapping
            "default" "restricted") = C ∧ (C == "") = false := ⟨_, rfl, hCne⟩
    refine ⟨Yaml.dict [
      ("name", Yaml.str ("enhanced_" ++ nm)),
      ("core", Yaml.dict [
        ("description", Yaml.str ("AI-enhanced " ++
          pyStr (Yaml.getD tf "description" (Yaml.str ("Enhanced " ++ nm))) ++
          " with MCP 2025-06-18 compliance")),
        ("input_schema", Yaml.dict eFs)]),
      ("execution", Yaml.dict [
        ("routing", Yaml.dict (("type", Yaml.str ("enhanced_" ++ tv)) :: rFs)),
        ("security", YamlMigrationTool.create_security_config C),
        ("performance", YamlMigrationTool.create_performance_config nm)]),
      ("discovery", Yaml.dict [
        ("ai_enhanced", YamlMigrationTool.create_ai_discovery nm
          (Yaml.getD tf "description" (Yaml.str ("Enhanced " ++ nm)))),
        ("parameter_intelligence", Yaml.dict piEs)]),
      ("monitoring", YamlMigrationTool.create_monitoring_config nm),
      ("access", Yaml.dict [
        ("hidden", Yaml.getD tf "hidden" (Yaml.bool true)),
        ("enabled", Yaml.bool true),
        ("requires_permissions",
          Yaml.list ((YamlMigrationTool.determine_permissions C).map Yaml.str)),
        ("user_groups", Yaml.list (if C == "safe" then [Yaml.str "all"]
                                   else [Yaml.str "administrators"])),
        ("approval_required", Yaml.bool (C == "dangerous" || C == "privileged"))])],
      ?_, ?_⟩
    · simp only [YamlMigrationTool.migrate_tool_to_enhanced, Yaml.asDict,
        Option.bind_eq_bind, Option.some_bind, hgn, hgs, hgr, hen, hrt, hpi, hCdef]
      rfl
    · intro fp i
      exact validate_migrated_tool fp i nm tv
        (Yaml.getD tf "description" (Yaml.str ("Enhanced " ++ nm)))
        (Yaml.getD tf "hidden" (Yaml.bool true)) eFs hEne rFs C hCne2 _ _ _ _ _
  all_goals simp [wf_tool] at h

theorem map_str_all_hashable {α : Type} (f : α → String) (l : List α) :
    (l.map (fun a => Yaml.str (f a))).all pyHashable = true := by
  induction l with
  | nil => rfl
  | cons a as ih => simp only [List.map_cons, List.all_cons, ih, pyHashable, Bool.and_self]

theorem generate_keywords_ok (stem : String) (mf : List (String × Yaml))
    (hw : wf_metadata (Yaml.dict mf) = true) :
    ∃ kws, YamlMigrationTool.generate_keywords stem mf = some kws := by
  have h0 : ((match Yaml.getOpt mf "tools" with
              | none => true
              | some t => (Yaml.pyLen t).isSome) &&
             (match Yaml.getOpt mf "tags" with
              | none => true
              | some t =>
                match t with
                | Yaml.list xs => xs.all pyHashable
                | Yaml.dict _ => true
                | Yaml.str _ => true
                | _ => false)) = true := hw
  rw [Bool.and_eq_true] at h0
  have hbase : (([Yaml.str (charReplace stem '_' ' ')] ++
      (YamlMigrationTool.firstMatch YamlMigrationTool.name_keywords
        (strLower stem) []).map Yaml.str).all pyHashable) = true := by
    rw [List.all_append]
    have hm : ((YamlMigrationTool.firstMatch YamlMigrationTool.name_keywords
        (strLower stem) []).map Yaml.str).all pyHashable = true :=
      map_str_all_hashable (fun a => a) _
    rw [hm]
    rfl
  cases ht : Yaml.getOpt mf "tags" with
  | none =>
    refine Option.isSome_iff_exists.mp ?_
    simp only [YamlMigrationTool.generate_keywords, ht, Option.bind_eq_bind, Option.pure_def,
      Option.some_bind, dedupPy, hbase]
    rfl
  | some t =>
    have h2 := h0.2
    rw [ht] at h2
    have hes : ∃ es, YamlMigrationTool.tagElems t = some es ∧ es.all pyHashable = true := by
      cases t
      case list xs =>
        have h3 : xs.all pyHashable = true := h2
        exact ⟨xs, rfl, h3⟩
      case dict d => exact ⟨_, rfl, map_str_all_hashable Prod.fst d⟩
      case str s => exact ⟨_, rfl, map_str_all_hashable (fun c => String.mk [c]) s.data⟩
      all_goals simp at h2
    obtain ⟨es, hte, hesh⟩ := hes
    have hall : ((([Yaml.str (charReplace stem '_' ' ')] ++
        (YamlMigrationTool.firstMatch YamlMigrationTool.name_keywords
          (strLower stem) []).map Yaml.str) ++ es).all pyHashable) = true := by
      rw [List.all_append, hbase, hesh]
      rfl
    refine Option.isSome_iff_exists.mp ?_
    simp only [YamlMigrationTool.generate_keywords, ht, hte, Option.bind_eq_bind,
      Option.pure_def, Option.some_bind, dedupPy, hall]
    rfl

theorem meta_ok (mf : List (String × Yaml)) (stem : String)
    (hw : wf_metadata (Yaml.dict mf) = true) (ha : author_ok (Yaml.dict mf) = true) :
    ∃ emf : List (String × Yaml),
      YamlMigrationTool.create_enhanced_metadata (Yaml.dict mf) stem = some (Yaml.dict emf) ∧
      Yaml.hasKey emf "classification" = true ∧
      ∀ fp, YamlMigrationValidator.validate_enhanced_metadata fp (Yaml.dict emf) = [] := by
  have h0 : ((match Yaml.getOpt mf "tools" with
              | none => true
              | some t => (Yaml.pyLen t).isSome) &&
             (match Yaml.getOpt mf "tags" with
              | none => true
              | some t =>
                match t with
                | Yaml.list xs => xs.all pyHashable
                | Yaml.dict _ => true
                | Yaml.str _ => true
                | _ => false)) = true := hw
  rw [Bool.and_eq_true] at h0
  obtain ⟨cnt, hcnt⟩ : ∃ cnt, Yaml.pyLen (Yaml.getD mf "tools" (Yaml.list [])) = some cnt := by
    have h1 := h0.1
    cases hv : Yaml.getOpt mf "tools" with
    | none =>
      rw [Yaml.getD_eq_of_getOpt_none _ _ _ hv]
      exact ⟨0, rfl⟩
    | some t =>
      rw [hv] at h1
      have h2 : (Yaml.pyLen t).isSome = true := h1
      obtain ⟨n, hn⟩ := Option.isSome_iff_exists.mp h2
      rw [Yaml.getD_eq_of_getOpt_some _ _ _ _ hv]
      exact ⟨n, hn⟩
  have hcls : YamlMigrationTool.classify_capability stem mf =
      some (YamlMigrationTool.security_level_of stem,
            YamlMigrationTool.complexity_level_of cnt,
            YamlMigrationTool.firstMatch YamlMigrationTool.domain_mapping
              (strLower stem) "general",
            YamlMigrationTool.firstMatch YamlMigrationTool.use_case_mapping
              (strLower stem) ["general_purpose"]) := by
    simp only [YamlMigrationTool.classify_capability, hcnt, Option.bind_eq_bind,
      Option.some_bind]
    rfl
  obtain ⟨kws, hkw⟩ := generate_keywords_ok stem mf hw
  have hauth : Yaml.truthy (Yaml.getD mf "author" (Yaml.str "MCP 2025 Enhanced Team")) = true := by
    have h1 : (match Yaml.getOpt mf "author" with
               | none => true
               | some a => Yaml.truthy a) = true := ha
    cases hv : Yaml.getOpt mf "author" with
    | none =>
      rw [Yaml.getD_eq_of_getOpt_none _ _ _ hv]
      rfl
    | some a =>
      rw [Yaml.getD_eq_of_getOpt_some _ _ _ _ hv]
      rw [hv] at h1
      exact h1
  refine ⟨[
    ("name", Yaml.str ("Enhanced " ++ pyStr (Yaml.getD mf "name"
      (Yaml.str ("Enhanced " ++ pyTitle (charReplace stem '_' ' ')))))),
    ("description", Yaml.str (pyStr (Yaml.getD mf "description"
      (Yaml.str ("Enhanced " ++ stem ++ " with MCP 2025-06-18 compliance"))) ++
      " - MCP 2025-06-18 compliant with AI enhancement")),
    ("version", Yaml.str "3.0.0"),
    ("author", Yaml.getD mf "author" (Yaml.str "MCP 2025 Enhanced Team")),
    ("classification", Yaml.dict [
      ("security_level", Yaml.str (YamlMigrationTool.security_level_of stem)),
      ("complexity_level", Yaml.str (YamlMigrationTool.complexity_level_of cnt)),
      ("domain", Yaml.str (YamlMigrationTool.firstMatch YamlMigrationTool.domain_mapping
        (strLower stem) "general")),
      ("use_cases", Yaml.list ((YamlMigrationTool.firstMatch YamlMigrationTool.use_case_mapping
        (strLower stem) ["general_purpose"]).map Yaml.str))]),
    ("discovery_metadata", Yaml.dict [
      ("primary_keywords", Yaml.list kws),
      ("semantic_embeddings", Yaml.bool true),
      ("llm_enhanced", Yaml.bool true),
      ("workflow_enabled", Yaml.bool true)]),
    ("mcp_capabilities", Yaml.dict [
      ("version", Yaml.str "2025-06-18"),
      ("supports_cancellation", Yaml.bool true),
      ("supports_progress", Yaml.bool true),
      ("supports_sampling", Yaml.bool false),
      ("supports_validation", Yaml.bool true),
      ("supports_elicitation", Yaml.bool false)])], ?_, rfl, ?_⟩
  · simp only [YamlMigrationTool.create_enhanced_metadata, Yaml.asDict, Option.bind_eq_bind,
      Option.some_bind, hcls, hkw]
    rfl
  · intro fp
    have hname : Yaml.truthy (Yaml.str ("Enhanced " ++ pyStr (Yaml.getD mf "name"
        (Yaml.str ("Enhanced " ++ pyTitle (charReplace stem '_' ' ')))))) = true :=
      truthy_append_left _ _ (by decide)
    have hdesc : Yaml.truthy (Yaml.str (pyStr (Yaml.getD mf "description"
        (Yaml.str ("Enhanced " ++ stem ++ " with MCP 2025-06-18 compliance"))) ++
        " - MCP 2025-06-18 compliant with AI enhancement")) = true :=
      truthy_append_right _ _ (by decide)
    simp only [YamlMigrationValidator.validate_enhanced_metadata,
      YamlMigrationValidator.validate_classification,
      YamlMigrationValidator.validate_discovery_metadata,
      YamlMigrationValidator.validate_mcp_capabilities, Yaml.getOpt, Yaml.getD,
      List.filter_cons, List.filter_nil]
    simp [hname, hdesc, hauth, sec_level_truthy, sec_level_valid, comp_level_truthy,
      comp_level_valid, Yaml.hasKey, Yaml.getOpt, Yaml.eqStr]
    refine ⟨rfl, fun h1 => ?_, fun h1 => ?_, rfl⟩
    · exact List.any_eq_true.mp (sec_level_valid stem)
    · exact List.any_eq_true.mp (comp_level_valid cnt)

/-- Witness for C5: the enum-enforcement theorem applied to a concrete
enhanced manifest whose `security_level` is `unsafe` and whose single tool
validates cleanly. -/
theorem c5_witness :
    ∃ rs, YamlMigrationValidator.validate_file_content false "f"
        (YamlMigrationValidator.ParseOutcome.parsed
          (Yaml.dict [("metadata", Yaml.dict c5_wit_mf),
                      ("tools", Yaml.list [c5_wit_tool])])) = some rs ∧
      YamlMigrationValidator.errorsOf rs =
        [⟨"f", ValidationLevel.ERROR,
          "Invalid security_level: unsafe. Must be one of: safe, restricted, mixed, privileged, dangerous, blocked",
          none⟩] ∧
      strContains
        "Invalid security_level: unsafe. Must be one of: safe, restricted, mixed, privileged, dangerous, blocked"
        "safe, restricted, mixed, privileged, dangerous, blocked" = true :=
  c5_enum_enforcement false "f" c5_wit_mf [("security_level", Yaml.str "unsafe")]
    (Yaml.list [c5_wit_tool]) [] (by rfl) (by rfl) (by rfl) (by rfl)
    (fun mc hm => by
      injection hm with h1
      rw [← h1]
      rfl)
    (by rfl) (by rfl) (by rfl)

theorem tools_map_ok (ts : List Yaml) (h : ts.all wf_tool = true) :
    ∃ ets : List Yaml, mapMo YamlMigrationTool.migrate_tool_to_enhanced ts = some ets ∧
      ets.length = ts.length ∧
      ∀ fp start, ∃ rss : List (List ValidationResult),
        mapMo (fun iv => YamlMigrationValidator.validate_enhanced_tool fp iv.2 iv.1)
          (List.enumFrom start ets) = some rss ∧ rss.flatten = [] := by
  induction ts with
  | nil => exact ⟨[], rfl, rfl, fun fp start => ⟨[], rfl, rfl⟩⟩
  | cons t ts ih =>
    rw [List.all_cons, Bool.and_eq_true] at h
    obtain ⟨et, hmig, hval⟩ := migrate_tool_ok t h.1
    obtain ⟨ets, hmaps, hlen, hvs⟩ := ih h.2
    refine ⟨et :: ets, ?_, ?_, ?_⟩
    · simp only [mapMo, Option.bind_eq_bind, hmig, Option.some_bind, hmaps]
      rfl
    · simp only [List.length_cons, hlen]
    · intro fp start
      obtain ⟨rss, hrss, hfl⟩ := hvs fp (start + 1)
      refine ⟨[] :: rss, ?_, ?_⟩
      · simp only [List.enumFrom, mapMo, Option.bind_eq_bind, hval fp start,
          Option.some_bind, hrss]
        rfl
      · simp only [List.flatten_cons, hfl]
        rfl

/-- C1 (amended): migrating a well-formed legacy manifest — non-empty tools
list, every tool carrying a string `name`, a `description`, a well-typed
`inputSchema` and a `routing` block with a `type`, with processable metadata
that, when it binds `author`, binds it to a truthy value — always succeeds,
and validating the migrated manifest yields no ERROR-level diagnostics. -/
theorem c1_roundtrip_amended (content : Yaml) (stem fp : String) (strict : Bool)
    (h : wf_legacy content = true)
    (ha : author_ok (legacy_metadata_of content) = true) :
    ∃ enhanced rs,
      YamlMigrationTool.migrate_yaml_content content stem = some enhanced ∧
      YamlMigrationValidator.validate_file_content strict fp
        (YamlMigrationValidator.ParseOutcome.parsed enhanced) = some rs ∧
      YamlMigrationValidator.errorsOf rs = [] := by
  cases content
  case dict fs =>
    have h0 : (wf_metadata (Yaml.getD fs "metadata" (Yaml.dict [])) &&
               (match Yaml.getOpt fs "tools" with
                | some (Yaml.list ts) => !ts.isEmpty && ts.all wf_tool
                | _ => false)) = true := h
    rw [Bool.and_eq_true] at h0
    obtain ⟨mf, hmf⟩ : ∃ mf, Yaml.getD fs "metadata" (Yaml.dict []) = Yaml.dict mf := by
      have h1 := h0.1
      cases hv : Yaml.getD fs "metadata" (Yaml.dict [])
      case dict m => exact ⟨m, rfl⟩
      all_goals (rw [hv] at h1; exact Bool.noConfusion h1)
    have hwm : wf_metadata (Yaml.dict mf) = true := by
      have h1 := h0.1
      rw [hmf] at h1
      exact h1
    have ham : author_ok (Yaml.dict mf) = true := by
      have ha1 : author_ok (Yaml.getD fs "metadata" (Yaml.dict [])) = true := ha
      rw [hmf] at ha1
      exact ha1
    obtain ⟨ts, hts, htne, htall⟩ : ∃ ts, Yaml.getOpt fs "tools" = some (Yaml.list ts) ∧
        ts.isEmpty = false ∧ ts.all wf_tool = true := by
      have h2 := h0.2
      cases hv : Yaml.getOpt fs "tools" with
      | none =>
        rw [hv] at h2
        exact Bool.noConfusion h2
      | some v =>
        rw [hv] at h2
        cases v
        case list ts =>
          have h3 : (!ts.isEmpty && ts.all wf_tool) = true := h2
          rw [Bool.and_eq_true, Bool.not_eq_true'] at h3
          exact ⟨ts, rfl, h3.1, h3.2⟩
        all_goals exact Bool.noConfusion h2
    obtain ⟨emf, hem, hek, hvm⟩ := meta_ok mf stem hwm ham
    obtain ⟨ets, hmaps, hlen, hvs⟩ := tools_map_ok ts htall
    have hgt : Yaml.getD fs "tools" (Yaml.list []) = Yaml.list ts :=
      Yaml.getD_eq_of_getOpt_some _ _ _ _ hts
    have hmig : YamlMigrationTool.migrate_yaml_content (Yaml.dict fs) stem =
        some (Yaml.dict [("metadata", Yaml.dict emf), ("tools", Yaml.list ets)]) := by
      simp only [YamlMigrationTool.migrate_yaml_content, Yaml.asDict, Option.bind_eq_bind,
        Option.some_bind, Option.pure_def, hmf, hgt, hem, Yaml.pyIter, hmaps]
    have hmd : Yaml.getD [("metadata", Yaml.dict emf), ("tools", Yaml.list ets)] "metadata"
        (Yaml.dict []) = Yaml.dict emf := rfl
    have hdet : YamlMigrationValidator.is_enhanced_format
        (Yaml.dict [("metadata", Yaml.dict emf), ("tools", Yaml.list ets)]) = true := by
      simp [YamlMigrationValidator.is_enhanced_format, hmd, hek]
    have hne : ets.isEmpty = false := by
      cases ets with
      | nil =>
        cases ts with
        | nil => exact Bool.noConfusion htne
        | cons a as => exact absurd hlen (by simp)
      | cons e es => rfl
    have htt : Yaml.truthy (Yaml.list ets) = true := by
      show (!ets.isEmpty) = true
      rw [hne]
      rfl
    obtain ⟨rss, hrss, hfl⟩ := hvs fp 0
    have hpart : YamlMigrationValidator.validate_enhanced_tools_part fp
        (Yaml.list ets) = some [] := by
      have h4 : YamlMigrationValidator.validate_enhanced_tools_part fp (Yaml.list ets) =
          (if (!Yaml.truthy (Yaml.list ets)) = true then
            some [⟨fp, ValidationLevel.ERROR,
              "Enhanced format must contain at least one tool", none⟩]
          else
            (Yaml.pyIter (Yaml.list ets)).bind (fun items =>
              (mapMo (fun iv => YamlMigrationValidator.validate_enhanced_tool fp iv.2 iv.1)
                items.enum).bind (fun rss => some rss.flatten))) := rfl
      rw [h4, htt]
      show (mapMo (fun iv => YamlMigrationValidator.validate_enhanced_tool fp iv.2 iv.1)
          (List.enumFrom 0 ets)).bind (fun rss => some rss.flatten) = some []
      rw [hrss]
      show some rss.flatten = some []
      rw [hfl]
    have hef : YamlMigrationValidator.validate_enhanced_format fp
        (Yaml.dict [("metadata", Yaml.dict emf), ("tools", Yaml.list ets)]) =
        some (YamlMigrationValidator.validate_enhanced_metadata fp (Yaml.dict emf) ++ []) := by
      have h5 : YamlMigrationValidator.validate_enhanced_format fp
          (Yaml.dict [("metadata", Yaml.dict emf), ("tools", Yaml.list ets)]) =
          (if (!Yaml.truthy (Yaml.list ets)) = true then
            some (YamlMigrationValidator.validate_enhanced_metadata fp (Yaml.dict emf) ++
              [⟨fp, ValidationLevel.ERROR,
                "Enhanced format must contain at least one tool", none⟩])
          else
            (YamlMigrationValidator.validate_enhanced_tools_part fp (Yaml.list ets)).bind
              (fun tl => some (YamlMigrationValidator.validate_enhanced_metadata fp
                (Yaml.dict emf) ++ tl))) := rfl
      rw [h5, htt, hpart]
      rfl
    have hvf0 : YamlMigrationValidator.validate_file_content strict fp
        (YamlMigrationValidator.ParseOutcome.parsed
          (Yaml.dict [("metadata", Yaml.dict emf), ("tools", Yaml.list ets)])) =
        ((if YamlMigrationValidator.is_enhanced_format
              (Yaml.dict [("metadata", Yaml.dict emf), ("tools", Yaml.list ets)]) = true then
            YamlMigrationValidator.validate_enhanced_format fp
              (Yaml.dict [("metadata", Yaml.dict emf), ("tools", Yaml.list ets)])
          else
            YamlMigrationValidator.validate_legacy_format fp
              (Yaml.dict [("metadata", Yaml.dict emf), ("tools", Yaml.list ets)])).map
          (fun rs => [⟨fp, ValidationLevel.INFO,
            "Detected format: " ++
              (if YamlMigrationValidator.is_enhanced_format
                  (Yaml.dict [("metadata", Yaml.dict emf), ("tools", Yaml.list ets)]) = true then
                "Enhanced MCP 2025-06-18"
              else "Legacy"), none⟩] ++ rs)) := rfl
    refine ⟨Yaml.dict [("metadata", Yaml.dict emf), ("tools", Yaml.list ets)],
      [⟨fp, ValidationLevel.INFO, "Detected format: Enhanced MCP 2025-06-18", none⟩] ++
        (YamlMigrationValidator.validate_enhanced_metadata fp (Yaml.dict emf) ++ []),
      hmig, ?_, ?_⟩
    · rw [hvf0, hdet, hef]
      rfl
    · rw [errorsOf_append, errorsOf_append, hvm fp]
      rfl
  all_goals exact Bool.noConfusion h

/-- C1 counterexample: a manifest satisfying exactly the claim's own
well-formedness conditions (non-empty tools list, each tool with name,
description, inputSchema and routing.type) whose legacy metadata binds
`author` to the falsy value `""`; migration succeeds but preserves the falsy
author, and validation of the migrated manifest reports the ERROR
`Missing required metadata fields: author`, so the round trip is not
error-free. -/
theorem c1_counterexample :
    claim_wf_legacy c1_cx_manifest = true ∧
    ((YamlMigrationTool.migrate_yaml_content c1_cx_manifest "ops").bind
      (fun e => YamlMigrationValidator.validate_file_content false "f"
        (YamlMigrationValidator.ParseOutcome.parsed e))).map
      YamlMigrationValidator.errorsOf =
      some [⟨"f", ValidationLevel.ERROR, "Missing required metadata fields: author", none⟩] ∧
    (some [⟨"f", ValidationLevel.ERROR, "Missing required metadata fields: author",
      (none : Option String)⟩] ≠
      some ([] : List ValidationResult)) := by
  refine ⟨rfl, by decide, by decide⟩

/-- Witness for C1: the amended round-trip theorem applied to the concrete
end-to-end manifest of spec §8, whose hypotheses hold by computation. -/
theorem c1_witness :
    wf_legacy c1_wit_manifest = true ∧
    author_ok (legacy_metadata_of c1_wit_manifest) = true ∧
    ∃ enhanced rs,
      YamlMigrationTool.migrate_yaml_content c1_wit_manifest "file_ops" = some enhanced ∧
      YamlMigrationValidator.validate_file_content false "f"
        (YamlMigrationValidator.ParseOutcome.parsed enhanced) = some rs ∧
      YamlMigrationValidator.errorsOf rs = [] :=
  ⟨rfl, rfl, c1_roundtrip_amended c1_wit_manifest "file_ops" "f" false rfl rfl⟩
